import Mathlib

/-!
Verification development for the runtime path finder (`moveobjecttocoords`):
a weighted A* planner over the overworld tile grid, built from a bounded
node pool, a binary min-heap frontier (`PathQueue`) and an open-addressed
visited set (`PathList`), plus the serializer (`ReconstructPath`) that turns
the parent chain of the goal node into a movement-action script.

The definitions below are a shallow embedding of `src/unnamed/part_000`
(`path_finding.c`).  C pointers into the bump-allocated node buffer become
indices into a retained-node list (`nodeBuffer`); a queue/set entry carries
the index together with the node value (`QEntry`).  `u32` arithmetic is
`Nat` with explicit `% 2 ^ 32` where the C code can wrap (the spatial hash);
`s16` coordinates are `Int` (all reachable map coordinates are far from the
16-bit boundary, so two's-complement wrap never occurs in the modelled
operations).  External game queries (map behavior, elevation, ledge and
collision classification, the rock-stairs test) are collected in an
`Oracle` record; the engine treats them as a read-only terrain oracle.
-/

/-! ### Direction, collision and map constants (values fixed by the game headers) -/

def DIR_NONE : Nat := 0
def DIR_SOUTH : Nat := 1
def DIR_NORTH : Nat := 2
def DIR_WEST : Nat := 3
def DIR_EAST : Nat := 4
def DIR_SOUTHWEST : Nat := 5
def DIR_SOUTHEAST : Nat := 6
def DIR_NORTHWEST : Nat := 7
def DIR_NORTHEAST : Nat := 8

def COLLISION_NONE : Nat := 0
def COLLISION_IMPASSABLE : Nat := 2
def COLLISION_LEDGE_JUMP : Nat := 6

/-- Modelled from the spec: the fixed map border offset added to script
coordinates (`MAP_OFFSET` from the fieldmap headers, not under `src/`). -/
def MAP_OFFSET : Int := 7

def PATH_FINDER_MAX_ELEVATION : Nat := 15

/-! ### Movement action codes

Modelled from the spec: the movement-action vocabulary lives in external
headers (`constants/event_object_movement.h`), not under `src/`.  The codes
below are distinct numerals; the only arithmetic the path finder performs on
them is `MOVEMENT_ACTION_FACE_DOWN + facingDirection - 1`, which requires
the four face actions to be consecutive starting at `MOVEMENT_ACTION_FACE_DOWN`
(they are `0x0`..`0x3` in the game headers). -/

def MOVEMENT_ACTION_FACE_DOWN : Nat := 0
def MOVEMENT_ACTION_FACE_UP : Nat := 1
def MOVEMENT_ACTION_FACE_LEFT : Nat := 2
def MOVEMENT_ACTION_FACE_RIGHT : Nat := 3
def MOVEMENT_ACTION_WALK_SLOW_DOWN : Nat := 4
def MOVEMENT_ACTION_WALK_SLOW_UP : Nat := 5
def MOVEMENT_ACTION_WALK_SLOW_LEFT : Nat := 6
def MOVEMENT_ACTION_WALK_SLOW_RIGHT : Nat := 7
def MOVEMENT_ACTION_WALK_NORMAL_DOWN : Nat := 8
def MOVEMENT_ACTION_WALK_NORMAL_UP : Nat := 9
def MOVEMENT_ACTION_WALK_NORMAL_LEFT : Nat := 10
def MOVEMENT_ACTION_WALK_NORMAL_RIGHT : Nat := 11
def MOVEMENT_ACTION_JUMP_2_DOWN : Nat := 12
def MOVEMENT_ACTION_JUMP_2_UP : Nat := 13
def MOVEMENT_ACTION_JUMP_2_LEFT : Nat := 14
def MOVEMENT_ACTION_JUMP_2_RIGHT : Nat := 15
def MOVEMENT_ACTION_WALK_FAST_DOWN : Nat := 16
def MOVEMENT_ACTION_WALK_FAST_UP : Nat := 17
def MOVEMENT_ACTION_WALK_FAST_LEFT : Nat := 18
def MOVEMENT_ACTION_WALK_FAST_RIGHT : Nat := 19
def MOVEMENT_ACTION_WALK_FASTER_DOWN : Nat := 20
def MOVEMENT_ACTION_WALK_FASTER_UP : Nat := 21
def MOVEMENT_ACTION_WALK_FASTER_LEFT : Nat := 22
def MOVEMENT_ACTION_WALK_FASTER_RIGHT : Nat := 23
def MOVEMENT_ACTION_WALK_NORMAL_DIAGONAL_DOWN_LEFT : Nat := 24
def MOVEMENT_ACTION_WALK_NORMAL_DIAGONAL_DOWN_RIGHT : Nat := 25
def MOVEMENT_ACTION_WALK_NORMAL_DIAGONAL_UP_LEFT : Nat := 26
def MOVEMENT_ACTION_WALK_NORMAL_DIAGONAL_UP_RIGHT : Nat := 27
def MOVEMENT_ACTION_WALK_FAST_DIAGONAL_DOWN_LEFT : Nat := 28
def MOVEMENT_ACTION_WALK_FAST_DIAGONAL_DOWN_RIGHT : Nat := 29
def MOVEMENT_ACTION_WALK_FAST_DIAGONAL_UP_LEFT : Nat := 30
def MOVEMENT_ACTION_WALK_FAST_DIAGONAL_UP_RIGHT : Nat := 31
def MOVEMENT_ACTION_WALK_SLOW_DIAGONAL_DOWN_LEFT : Nat := 32
def MOVEMENT_ACTION_WALK_SLOW_DIAGONAL_DOWN_RIGHT : Nat := 33
def MOVEMENT_ACTION_WALK_SLOW_DIAGONAL_UP_LEFT : Nat := 34
def MOVEMENT_ACTION_WALK_SLOW_DIAGONAL_UP_RIGHT : Nat := 35
def MOVEMENT_ACTION_GENERATED_BEGIN : Nat := 252
def MOVEMENT_ACTION_GENERATED_END : Nat := 253
def MOVEMENT_ACTION_NONE : Nat := 254

/-! ### Direction vectors

Modelled from the spec: `gDirectionToVectors` (external array); south is
`+y`, north `-y`, west `-x`, east `+x`, diagonals combine both. -/

def gDirectionToVectorsX (direction : Nat) : Int :=
  if direction = DIR_WEST then -1
  else if direction = DIR_EAST then 1
  else if direction = DIR_SOUTHWEST then -1
  else if direction = DIR_SOUTHEAST then 1
  else if direction = DIR_NORTHWEST then -1
  else if direction = DIR_NORTHEAST then 1
  else 0

def gDirectionToVectorsY (direction : Nat) : Int :=
  if direction = DIR_SOUTH then 1
  else if direction = DIR_NORTH then -1
  else if direction = DIR_SOUTHWEST then 1
  else if direction = DIR_SOUTHEAST then 1
  else if direction = DIR_NORTHWEST then -1
  else if direction = DIR_NORTHEAST then -1
  else 0

/-! ### Data model -/

/-- `struct Coords16`: a signed 16-bit coordinate pair (modelled on `Int`). -/
structure Coords16 where
  x : Int
  y : Int
deriving DecidableEq, Repr

/-- The slice of `struct ObjectEvent` the path finder reads: current
coordinates, current elevation, and the forced direction override. -/
structure ObjectEvent where
  currentX : Int
  currentY : Int
  currentElevation : Nat
  directionOverwrite : Nat
deriving DecidableEq, Repr

/-- `struct PathNode` (field-for-field).  `parent` is the index of the
predecessor in the retained-node buffer (`NULL` becomes `none`). -/
structure PathNode where
  parent : Option Nat
  costG : Nat
  costF : Nat
  x : Int
  y : Int
  elevation : Nat
  movementAction : Nat
  originDirection : Nat
deriving DecidableEq, Repr, Inhabited

/-- A C pointer to a retained node: its index in the node buffer paired with
the (immutable once retained) node value. -/
structure QEntry where
  idx : Nat
  node : PathNode
deriving DecidableEq, Repr, Inhabited

/-- `struct PathQueue`: the frontier.  The C array-plus-size pair becomes the
list of the first `size` stored pointers; `capacity` is the fixed allocation. -/
structure PathQueue where
  nodes : List QEntry
  capacity : Nat
deriving DecidableEq, Repr

/-- `struct PathList`: the open-addressed visited set.  `nodes` has length
`capacity` (a power of two); `mask = capacity - 1`. -/
structure PathList where
  nodes : List (Option QEntry)
  capacity : Nat
  mask : Nat
  size : Nat
deriving DecidableEq, Repr

/-- The external game queries the search consumes, bundled as a read-only
terrain oracle: `MapGridGetMetatileBehaviorAt`, `MapGridGetElevationAt`,
`GetLedgeJumpDirectionWithBehavior`, `GetCollisionWithBehaviorsAtCoords`
(with the fixed object event folded in), and the rock-stairs predicate
together with the `SLOW_MOVEMENT_ON_STAIRS` config flag. -/
structure Oracle where
  behaviorAt : Int → Int → Nat
  elevationAt : Int → Int → Nat
  ledgeJumpDirection : Nat → Nat → Nat
  getCollision : Int → Int → Nat → Nat → Nat → Nat → Nat
  movingOnRockStairs : Nat → Nat → Nat → Bool
  slowMovementOnStairs : Bool

/-- `struct PathFinderContext`. -/
structure PathFinderContext where
  nodeFrontier : PathQueue
  exploredNodes : PathList
  objectEvent : ObjectEvent
  currentNode : Option QEntry
  nodeBuffer : List PathNode
  start : Coords16
  target : Coords16
  nodeCount : Nat
  speed : Nat
  maxNodes : Nat
  facingDirection : Nat

/-! ### Neighbor tables and movement tables -/

/-- `sNeighbors[direction][i]` (entries past `sNeighborCount` are `DIR_NONE`,
exactly as the zero-filled C table). -/
def sNeighbors (direction i : Nat) : Nat :=
  match direction, i with
  | 0, 0 => DIR_SOUTH
  | 0, 1 => DIR_NORTH
  | 0, 2 => DIR_WEST
  | 0, 3 => DIR_EAST
  | 1, 0 => DIR_NORTH
  | 1, 1 => DIR_WEST
  | 1, 2 => DIR_EAST
  | 2, 0 => DIR_SOUTH
  | 2, 1 => DIR_WEST
  | 2, 2 => DIR_EAST
  | 3, 0 => DIR_SOUTH
  | 3, 1 => DIR_NORTH
  | 3, 2 => DIR_EAST
  | 4, 0 => DIR_SOUTH
  | 4, 1 => DIR_NORTH
  | 4, 2 => DIR_WEST
  | _, _ => DIR_NONE

/-- `sNeighborCount[direction]`. -/
def sNeighborCount (direction : Nat) : Nat :=
  if direction = DIR_NONE then 4 else 3

/-- The candidate directions the expansion loop iterates for a settled node
whose `originDirection` is `direction`:
`for (i = 0; i < sNeighborCount[direction]; i++) sNeighbors[direction][i]`. -/
def expansionDirs (direction : Nat) : List Nat :=
  (List.range (sNeighborCount direction)).map (fun i => sNeighbors direction i)

/-- `sPrecomputedDistance[direction]`: per-step cost (1 cardinal, 2 diagonal). -/
def sPrecomputedDistance (direction : Nat) : Nat :=
  if direction = DIR_NONE then 0
  else if direction ≤ DIR_EAST then 1
  else if direction ≤ DIR_NORTHEAST then 2
  else 0

def sWalkSlowMovement (direction : Nat) : Nat :=
  if direction = DIR_SOUTH then MOVEMENT_ACTION_WALK_SLOW_DOWN
  else if direction = DIR_NORTH then MOVEMENT_ACTION_WALK_SLOW_UP
  else if direction = DIR_WEST then MOVEMENT_ACTION_WALK_SLOW_LEFT
  else if direction = DIR_EAST then MOVEMENT_ACTION_WALK_SLOW_RIGHT
  else if direction = DIR_SOUTHWEST then MOVEMENT_ACTION_WALK_SLOW_DIAGONAL_DOWN_LEFT
  else if direction = DIR_SOUTHEAST then MOVEMENT_ACTION_WALK_SLOW_DIAGONAL_DOWN_RIGHT
  else if direction = DIR_NORTHWEST then MOVEMENT_ACTION_WALK_SLOW_DIAGONAL_UP_LEFT
  else if direction = DIR_NORTHEAST then MOVEMENT_ACTION_WALK_SLOW_DIAGONAL_UP_RIGHT
  else MOVEMENT_ACTION_NONE

def sWalkNormalMovement (direction : Nat) : Nat :=
  if direction = DIR_SOUTH then MOVEMENT_ACTION_WALK_NORMAL_DOWN
  else if direction = DIR_NORTH then MOVEMENT_ACTION_WALK_NORMAL_UP
  else if direction = DIR_WEST then MOVEMENT_ACTION_WALK_NORMAL_LEFT
  else if direction = DIR_EAST then MOVEMENT_ACTION_WALK_NORMAL_RIGHT
  else if direction = DIR_SOUTHWEST then MOVEMENT_ACTION_WALK_NORMAL_DIAGONAL_DOWN_LEFT
  else if direction = DIR_SOUTHEAST then MOVEMENT_ACTION_WALK_NORMAL_DIAGONAL_DOWN_RIGHT
  else if direction = DIR_NORTHWEST then MOVEMENT_ACTION_WALK_NORMAL_DIAGONAL_UP_LEFT
  else if direction = DIR_NORTHEAST then MOVEMENT_ACTION_WALK_NORMAL_DIAGONAL_UP_RIGHT
  else MOVEMENT_ACTION_NONE

def sWalkFastMovement (direction : Nat) : Nat :=
  if direction = DIR_SOUTH then MOVEMENT_ACTION_WALK_FAST_DOWN
  else if direction = DIR_NORTH then MOVEMENT_ACTION_WALK_FAST_UP
  else if direction = DIR_WEST then MOVEMENT_ACTION_WALK_FAST_LEFT
  else if direction = DIR_EAST then MOVEMENT_ACTION_WALK_FAST_RIGHT
  else if direction = DIR_SOUTHWEST then MOVEMENT_ACTION_WALK_FAST_DIAGONAL_DOWN_LEFT
  else if direction = DIR_SOUTHEAST then MOVEMENT_ACTION_WALK_FAST_DIAGONAL_DOWN_RIGHT
  else if direction = DIR_NORTHWEST then MOVEMENT_ACTION_WALK_FAST_DIAGONAL_UP_LEFT
  else if direction = DIR_NORTHEAST then MOVEMENT_ACTION_WALK_FAST_DIAGONAL_UP_RIGHT
  else MOVEMENT_ACTION_NONE

def sWalkFasterMovement (direction : Nat) : Nat :=
  if direction = DIR_SOUTH then MOVEMENT_ACTION_WALK_FASTER_DOWN
  else if direction = DIR_NORTH then MOVEMENT_ACTION_WALK_FASTER_UP
  else if direction = DIR_WEST then MOVEMENT_ACTION_WALK_FASTER_LEFT
  else if direction = DIR_EAST then MOVEMENT_ACTION_WALK_FASTER_RIGHT
  else if direction = DIR_SOUTHWEST then MOVEMENT_ACTION_WALK_FAST_DIAGONAL_DOWN_LEFT
  else if direction = DIR_SOUTHEAST then MOVEMENT_ACTION_WALK_FAST_DIAGONAL_DOWN_RIGHT
  else if direction = DIR_NORTHWEST then MOVEMENT_ACTION_WALK_FAST_DIAGONAL_UP_LEFT
  else if direction = DIR_NORTHEAST then MOVEMENT_ACTION_WALK_FAST_DIAGONAL_UP_RIGHT
  else MOVEMENT_ACTION_NONE

def sJump2Movement (direction : Nat) : Nat :=
  if direction = DIR_SOUTH then MOVEMENT_ACTION_JUMP_2_DOWN
  else if direction = DIR_NORTH then MOVEMENT_ACTION_JUMP_2_UP
  else if direction = DIR_WEST then MOVEMENT_ACTION_JUMP_2_LEFT
  else if direction = DIR_EAST then MOVEMENT_ACTION_JUMP_2_RIGHT
  else MOVEMENT_ACTION_NONE

/-- `sMovementsBySpeed[speed][direction]` (speed is clamped to `0..3` before use). -/
def sMovementsBySpeed (speed direction : Nat) : Nat :=
  match speed with
  | 0 => sWalkSlowMovement direction
  | 1 => sWalkNormalMovement direction
  | 2 => sWalkFastMovement direction
  | _ => sWalkFasterMovement direction

/-! ### Node primitives -/

/-- `OppositeDirection`. -/
def OppositeDirection (direction : Nat) : Nat :=
  if direction = DIR_SOUTH then DIR_NORTH
  else if direction = DIR_NORTH then DIR_SOUTH
  else if direction = DIR_WEST then DIR_EAST
  else if direction = DIR_EAST then DIR_WEST
  else DIR_NONE

/-- `ManhattanDistance` (via `PathFinder_Abs`, which is `|·|` on in-range
16-bit values). -/
def ManhattanDistance (x1 y1 x2 y2 : Int) : Nat :=
  (x2 - x1).natAbs + (y2 - y1).natAbs

/-- `PathNode_Equal`: logical identity is the `(x, y, elevation)` triple. -/
def PathNode_Equal (node1 node2 : PathNode) : Bool :=
  node1.x = node2.x ∧ node1.y = node2.y ∧ node1.elevation = node2.elevation

/-- `PathNode_HasLowerCost`: strict comparison on `costF`. -/
def PathNode_HasLowerCost (node1 node2 : PathNode) : Bool :=
  node1.costF < node2.costF

/-- `PathNode_Hash`: spatial hash of `((u16)x, (u16)y, elevation)` followed by
a 32-bit finalizing mix; all `u32` products reduced `% 2 ^ 32`. -/
def PathNode_Hash (node : PathNode) : Nat :=
  let x : Nat := (node.x % 65536).toNat
  let y : Nat := (node.y % 65536).toNat
  let elevation : Nat := node.elevation
  let hash0 : Nat := ((x * 73856093) % 2 ^ 32) ^^^ ((y * 19349663) % 2 ^ 32) ^^^
    ((elevation * 83492791) % 2 ^ 32)
  let hash1 : Nat := hash0 ^^^ (hash0 >>> 16)
  let hash2 : Nat := (hash1 * 0x85ebca6b) % 2 ^ 32
  hash2 ^^^ (hash2 >>> 13)

/-- `PathNode_GetElevation`: a raw elevation equal to the sentinel 15 inherits
the parent's elevation (when there is a parent). -/
def PathNode_GetElevation (oracle : Oracle) (parentElevation : Option Nat) (x y : Int) : Nat :=
  let elevation := oracle.elevationAt x y
  match parentElevation with
  | some parentElev => if elevation = PATH_FINDER_MAX_ELEVATION then parentElev else elevation
  | none => elevation

/-! ### Priority queue (`PathQueue`) -/

def GetLeftChild (index : Nat) : Nat := 2 * index + 1

def GetParent (index : Nat) : Nat := (index - 1) / 2

def PathQueue_Create (capacity : Nat) : PathQueue :=
  { nodes := [], capacity := capacity }

/-- `costF` of the entry stored at `index` (reads as the C `nodes[index]`). -/
def heapKey (nodes : List QEntry) (index : Nat) : Nat :=
  (nodes.getD index default).node.costF

/-- The sift-up loop of `PathQueue_HeapifyUp`: `temp` is the floating element,
`index` the current hole.  `fuel ≥ index + 1` makes the fuel irrelevant
(the hole index strictly decreases). -/
def PathQueue_HeapifyUpLoop : Nat → List QEntry → QEntry → Nat → List QEntry
  | 0, nodes, temp, index => nodes.set index temp
  | fuel + 1, nodes, temp, index =>
    if index = 0 then nodes.set index temp
    else
      let parent := GetParent index
      if PathNode_HasLowerCost temp.node (nodes.getD parent default).node then
        PathQueue_HeapifyUpLoop fuel (nodes.set index (nodes.getD parent default)) temp parent
      else nodes.set index temp

/-- `PathQueue_HeapifyUp`. -/
def PathQueue_HeapifyUp (nodes : List QEntry) (index : Nat) : List QEntry :=
  PathQueue_HeapifyUpLoop (index + 1) nodes (nodes.getD index default) index

/-- The sift-down loop of `PathQueue_HeapifyDown`; the hole index strictly
increases, so `fuel ≥ length - index` suffices. -/
def PathQueue_HeapifyDownLoop : Nat → List QEntry → QEntry → Nat → List QEntry
  | 0, nodes, temp, index => nodes.set index temp
  | fuel + 1, nodes, temp, index =>
    let left := GetLeftChild index
    if left ≥ nodes.length then nodes.set index temp
    else
      let right := left + 1
      let best :=
        if right < nodes.length ∧
            PathNode_HasLowerCost (nodes.getD right default).node (nodes.getD left default).node
        then right else left
      if PathNode_HasLowerCost (nodes.getD best default).node temp.node then
        PathQueue_HeapifyDownLoop fuel (nodes.set index (nodes.getD best default)) temp best
      else nodes.set index temp

/-- `PathQueue_HeapifyDown`. -/
def PathQueue_HeapifyDown (nodes : List QEntry) (index : Nat) : List QEntry :=
  PathQueue_HeapifyDownLoop nodes.length nodes (nodes.getD index default) index

/-- `PathQueue_Push`: fails (queue unchanged) at capacity, otherwise appends
at index `size` and sifts up. -/
def PathQueue_Push (queue : PathQueue) (entry : QEntry) : PathQueue × Bool :=
  if queue.nodes.length ≥ queue.capacity then (queue, false)
  else
    ({ queue with nodes := PathQueue_HeapifyUp (queue.nodes ++ [entry]) queue.nodes.length },
      true)

/-- `PathQueue_Pop`: removes the root; the last element moves to the root and
sifts down. -/
def PathQueue_Pop (queue : PathQueue) : Option (QEntry × PathQueue) :=
  match queue.nodes with
  | [] => none
  | _ :: _ =>
    let out := queue.nodes.getD 0 default
    let size := queue.nodes.length - 1
    if size = 0 then some (out, { queue with nodes := [] })
    else
      let moved := queue.nodes.getD size default
      some (out,
        { queue with
          nodes := PathQueue_HeapifyDown (queue.nodes.dropLast.set 0 moved) 0 })

/-! ### Visited set (`PathList`) -/

/-- The five or-with-shift steps of `NextPowerOfTwo`: after them, every bit
below the highest set bit of `m` is set. -/
def SmearBits (m : Nat) : Nat :=
  let m1 := m ||| (m >>> 1)
  let m2 := m1 ||| (m1 >>> 2)
  let m3 := m2 ||| (m2 >>> 4)
  let m4 := m3 ||| (m3 >>> 8)
  m4 ||| (m4 >>> 16)

/-- `NextPowerOfTwo` (32-bit bit smearing; the final increment wraps at
`2 ^ 32` exactly as the `u32` in C). -/
def NextPowerOfTwo (num : Nat) : Nat :=
  if num = 0 then 1 else (SmearBits (num - 1) + 1) % 2 ^ 32

/-- `PathList_Create`: a zeroed table of `NextPowerOfTwo capacity` slots. -/
def PathList_Create (capacity : Nat) : PathList :=
  let cap := NextPowerOfTwo capacity
  { nodes := List.replicate cap none, capacity := cap, mask := cap - 1, size := 0 }

/-- The linear-probing loop of `PathList_TryInsert`; returns
`(inserted, table, out)`. `fuel` plays the role of the bounded `for` counter. -/
def PathList_TryInsertLoop (mask : Nat) (entry : QEntry) :
    Nat → List (Option QEntry) → Nat → Bool × List (Option QEntry) × Option QEntry
  | 0, nodes, _ => (false, nodes, none)
  | fuel + 1, nodes, index =>
    match nodes.getD index none with
    | none => (true, nodes.set index (some entry), some entry)
    | some current =>
      if PathNode_Equal current.node entry.node then (false, nodes, some current)
      else PathList_TryInsertLoop mask entry fuel nodes ((index + 1) &&& mask)

/-- `PathList_TryInsert`. -/
def PathList_TryInsert (list : PathList) (entry : QEntry) :
    Bool × PathList × Option QEntry :=
  let start := PathNode_Hash entry.node &&& list.mask
  let result := PathList_TryInsertLoop list.mask entry list.capacity list.nodes start
  if result.1 then
    (true, { list with nodes := result.2.1, size := list.size + 1 }, result.2.2)
  else (false, { list with nodes := result.2.1 }, result.2.2)

/-- The probing loop of `PathList_HasNode`. -/
def PathList_HasNodeLoop (mask : Nat) (node : PathNode) :
    Nat → List (Option QEntry) → Nat → Bool
  | 0, _, _ => false
  | fuel + 1, nodes, index =>
    match nodes.getD index none with
    | none => false
    | some current =>
      if PathNode_Equal current.node node then true
      else PathList_HasNodeLoop mask node fuel nodes ((index + 1) &&& mask)

/-- `PathList_HasNode`. -/
def PathList_HasNode (list : PathList) (node : PathNode) : Bool :=
  PathList_HasNodeLoop list.mask node list.capacity list.nodes
    (PathNode_Hash node &&& list.mask)

/-! ### Search engine -/

/-- `CheckForPathFinderCollision`: a ledge-jump classification for the
candidate tile wins over the general collision query. -/
def CheckForPathFinderCollision (oracle : Oracle) (elevation : Nat) (x y : Int)
    (direction currentBehavior nextBehavior : Nat) : Nat :=
  if oracle.ledgeJumpDirection direction nextBehavior ≠ DIR_NONE then COLLISION_LEDGE_JUMP
  else oracle.getCollision x y elevation direction currentBehavior nextBehavior

/-- `PathNode_Create`: fails once the node budget is reached; otherwise fills
a fresh node.  `costH` is `distance + distance / 2` (the `PATH_FINDER_WEIGHT
== 1.5` branch); `parent` is the current node; `originDirection` the reverse
of the direction traveled.  `movementAction` is uninitialized in C and always
overwritten before the node is retained (modelled as `MOVEMENT_ACTION_NONE`;
the start node never has its action read). -/
def PathNode_Create (ctx : PathFinderContext) (oracle : Oracle) (x y : Int)
    (direction : Nat) (costG : Nat) : Option PathNode :=
  if ctx.maxNodes = ctx.nodeCount then none
  else
    let distance := ManhattanDistance x y ctx.target.x ctx.target.y
    let costH := distance + distance / 2
    some
      { parent := ctx.currentNode.map (fun entry => entry.idx)
        costG := costG
        costF := costG + costH
        x := x
        y := y
        elevation := PathNode_GetElevation oracle (ctx.currentNode.map (fun entry => entry.node.elevation)) x y
        movementAction := MOVEMENT_ACTION_NONE
        originDirection := OppositeDirection direction }

/-- Retaining a freshly created node: the C code wrote it at
`nodeBuffer[nodeCount]`; pushing its pointer and, on success, incrementing
`nodeCount` makes the slot permanent. -/
def RetainAndPush (ctx : PathFinderContext) (neighbor : PathNode) : PathFinderContext :=
  let entry : QEntry := { idx := ctx.nodeCount, node := neighbor }
  let pushed := PathQueue_Push ctx.nodeFrontier entry
  if pushed.2 then
    { ctx with
      nodeFrontier := pushed.1
      nodeBuffer := ctx.nodeBuffer ++ [neighbor]
      nodeCount := ctx.nodeCount + 1 }
  else { ctx with nodeFrontier := pushed.1 }

/-- `TryCreateNeighbor`.  The `currentNode = none` case is unreachable in the
expansion loop (C would dereference NULL); modelled as a no-op. -/
def TryCreateNeighbor (oracle : Oracle) (ctx : PathFinderContext) (direction : Nat) :
    PathFinderContext :=
  match ctx.currentNode with
  | none => ctx
  | some currentNode =>
    let neighborX := currentNode.node.x + gDirectionToVectorsX direction
    let neighborY := currentNode.node.y + gDirectionToVectorsY direction
    let nextBehavior := oracle.behaviorAt neighborX neighborY
    let currentBehavior := oracle.behaviorAt currentNode.node.x currentNode.node.y
    let collision := CheckForPathFinderCollision oracle currentNode.node.elevation
      neighborX neighborY direction currentBehavior nextBehavior
    if collision = COLLISION_NONE then
      let direction :=
        if ctx.objectEvent.directionOverwrite ≠ DIR_NONE then ctx.objectEvent.directionOverwrite
        else direction
      let neighborX := currentNode.node.x + gDirectionToVectorsX direction
      let neighborY := currentNode.node.y + gDirectionToVectorsY direction
      let tentativeG := currentNode.node.costG + sPrecomputedDistance direction
      match PathNode_Create ctx oracle neighborX neighborY direction tentativeG with
      | none => ctx
      | some neighbor =>
        if PathList_HasNode ctx.exploredNodes neighbor then ctx
        else
          let speed :=
            if oracle.slowMovementOnStairs ∧ ctx.speed ≠ 0 ∧
                oracle.movingOnRockStairs direction currentBehavior nextBehavior = true
            then ctx.speed - 1 else ctx.speed
          RetainAndPush ctx { neighbor with movementAction := sMovementsBySpeed speed direction }
    else if collision = COLLISION_LEDGE_JUMP then
      let neighborX := currentNode.node.x + gDirectionToVectorsX direction * 2
      let neighborY := currentNode.node.y + gDirectionToVectorsY direction * 2
      let tentativeG := currentNode.node.costG + sPrecomputedDistance direction * 2
      match PathNode_Create ctx oracle neighborX neighborY direction tentativeG with
      | none => ctx
      | some neighbor =>
        if PathList_HasNode ctx.exploredNodes neighbor then ctx
        else RetainAndPush ctx { neighbor with movementAction := sJump2Movement direction }
    else ctx

/-- `PathFinderTargetReached`. -/
def PathFinderTargetReached (ctx : PathFinderContext) (node : PathNode) : Bool :=
  if ctx.target.x = node.x ∧ ctx.target.y = node.y then true else false

/-- Goal-to-start walk of the parent chain collecting `movementAction`s (the
start node, the one with no parent, contributes none).  Parent indices of
retained nodes strictly decrease, so `fuel = length` always suffices. -/
def ChainActions (nodeBuffer : List PathNode) : Nat → Nat → List Nat
  | 0, _ => []
  | fuel + 1, index =>
    let node := nodeBuffer.getD index default
    match node.parent with
    | none => []
    | some parent => node.movementAction :: ChainActions nodeBuffer fuel parent

/-- The exact buffer `ReconstructPath` fills: begin marker, the actions in
start-to-goal order, an optional face action, the end marker. -/
def ReconstructPathBuffer (nodeBuffer : List PathNode) (targetIndex facingDirection : Nat) :
    List Nat :=
  MOVEMENT_ACTION_GENERATED_BEGIN ::
    ((ChainActions nodeBuffer nodeBuffer.length targetIndex).reverse ++
      (if facingDirection ≠ DIR_NONE then [MOVEMENT_ACTION_FACE_DOWN + facingDirection - 1]
        else []) ++
      [MOVEMENT_ACTION_GENERATED_END])

/-- `ReconstructPath` returns `movementScript + 1`: the begin marker is
written to the buffer but excluded from the returned sequence
(`movementScript++; // Ignore begin marker`). -/
def ReconstructPath (nodeBuffer : List PathNode) (targetIndex facingDirection : Nat) :
    List Nat :=
  (ReconstructPathBuffer nodeBuffer targetIndex facingDirection).tail

/-- One full body of the `while (PathQueue_Pop(...))` loop, fuel-bounded.
Each iteration consumes a pop; total successful pushes never exceed the node
budget (every successful push increments `nodeCount`, which `PathNode_Create`
caps at `maxNodes`), so `maxNodes + 1` iterations are enough for the C loop
to hit the empty queue. -/
def FindPathLoop (oracle : Oracle) : Nat → PathFinderContext → Option (List Nat)
  | 0, _ => none
  | fuel + 1, ctx =>
    match PathQueue_Pop ctx.nodeFrontier with
    | none => none
    | some (nextNode, frontier) =>
      let ctx := { ctx with nodeFrontier := frontier, currentNode := none }
      let result := PathList_TryInsert ctx.exploredNodes nextNode
      let ctx := { ctx with exploredNodes := result.2.1, currentNode := result.2.2 }
      if result.1 = false then FindPathLoop oracle fuel ctx
      else
        match ctx.currentNode with
        | none => none
        | some currentNode =>
          if PathFinderTargetReached ctx currentNode.node then
            some (ReconstructPath ctx.nodeBuffer currentNode.idx ctx.facingDirection)
          else
            let ctx :=
              (expansionDirs currentNode.node.originDirection).foldl
                (fun c d => TryCreateNeighbor oracle c d) ctx
            FindPathLoop oracle fuel ctx

/-- `FindPathForObjectEvent`.  The start node is created, its elevation
overwritten with the agent's current elevation, retained unconditionally and
pushed; then the search loop runs.  (When `maxNodes ≠ 0` but
`ctx.maxNodes = ctx.nodeCount` the C code dereferences NULL; every caller
passes `maxNodes = ctx.maxNodes` on a fresh context, so the branch below
returning `none` is unreachable.) -/
def FindPathForObjectEvent (oracle : Oracle) (ctx : PathFinderContext) (maxNodes : Nat) :
    Option (List Nat) :=
  if maxNodes = 0 then none
  else
    match PathNode_Create ctx oracle ctx.start.x ctx.start.y DIR_NONE 0 with
    | none => none
    | some startNode0 =>
      let startNode := { startNode0 with elevation := ctx.objectEvent.currentElevation }
      let startIndex := ctx.nodeCount
      let ctx :=
        { ctx with
          nodeBuffer := ctx.nodeBuffer ++ [startNode]
          nodeCount := ctx.nodeCount + 1 }
      let ctx :=
        { ctx with
          nodeFrontier := (PathQueue_Push ctx.nodeFrontier { idx := startIndex, node := startNode }).1 }
      FindPathLoop oracle (maxNodes + 1) ctx

/-- `CreatePathFinderContext`: clamps the speed tier to `0..3`, folds an
out-of-range facing direction back by `DIR_EAST`, offsets the target by the
map border, and allocates the frontier and visited set at the node budget. -/
def CreatePathFinderContext (objectEvent : ObjectEvent) (targetX targetY : Int)
    (facingDirection speed : Nat) (maxNodes : Nat) : PathFinderContext :=
  let speed := if speed ≥ 4 then 3 else speed
  let facingDirection :=
    if facingDirection > DIR_EAST then facingDirection - DIR_EAST else facingDirection
  { nodeFrontier := PathQueue_Create maxNodes
    exploredNodes := PathList_Create maxNodes
    objectEvent := objectEvent
    currentNode := none
    nodeBuffer := []
    start := { x := objectEvent.currentX, y := objectEvent.currentY }
    target := { x := targetX + MAP_OFFSET, y := targetY + MAP_OFFSET }
    nodeCount := 0
    speed := speed
    maxNodes := maxNodes
    facingDirection := facingDirection }

/-! ### Derived specifications (invariants stated over the embedded code) -/

/-- The binary min-heap invariant on the frontier storage: no parent's
`costF` exceeds either child's `costF`. -/
def IsHeap (nodes : List QEntry) : Prop :=
  ∀ j, 0 < j → j < nodes.length → heapKey nodes ((j - 1) / 2) ≤ heapKey nodes j

/-- An operation on the frontier: a push of an entry or a pop. -/
inductive QOp where
  | push : QEntry → QOp
  | pop : QOp
deriving DecidableEq, Repr

/-- Run a sequence of `PathQueue_Push` / `PathQueue_Pop` operations (a failed
push and a pop of an empty queue leave the queue as the code leaves it). -/
def applyQueueOps (queue : PathQueue) (ops : List QOp) : PathQueue :=
  ops.foldl
    (fun q op =>
      match op with
      | QOp.push e => (PathQueue_Push q e).1
      | QOp.pop =>
        match PathQueue_Pop q with
        | none => q
        | some result => result.2)
    queue

/-- Run a sequence of `PathList_TryInsert` operations, keeping the table. -/
def PathList_InsertAll (list : PathList) (entries : List QEntry) : PathList :=
  entries.foldl (fun l e => (PathList_TryInsert l e).2.1) list

/-- Slot reached after `k` linear-probing steps from `home`. -/
def probeSlot (home k cap : Nat) : Nat := (home + k) % cap

/-- Number of probing steps from `home` to slot `s` (both below `cap`). -/
def probeDist (home s cap : Nat) : Nat := (cap + s - home) % cap

/-- The home slot of a node: its hash reduced modulo the table capacity. -/
def homeSlot (node : PathNode) (cap : Nat) : Nat := PathNode_Hash node % cap

/-- Well-formedness of the visited set: power-of-two capacity, the mask is
`capacity - 1`, and the backing storage has exactly `capacity` slots. -/
def PathList_WF (l : PathList) : Prop :=
  (∃ t, l.capacity = 2 ^ t) ∧ l.mask = l.capacity - 1 ∧ l.nodes.length = l.capacity

/-- The linear-probing chain invariant: every slot on the probe path from a
stored entry's home slot to its actual slot is occupied. -/
def ChainInv (l : PathList) : Prop :=
  ∀ s, s < l.capacity → ∀ e, l.nodes.getD s none = some e →
    ∀ k, k < probeDist (homeSlot e.node l.capacity) s l.capacity →
      l.nodes.getD (probeSlot (homeSlot e.node l.capacity) k l.capacity) none ≠ none

/-- No two distinct slots hold logically equal (`(x, y, elevation)`) entries. -/
def NoDupes (l : PathList) : Prop :=
  ∀ i j, i < l.capacity → j < l.capacity → i ≠ j →
    ∀ a b, l.nodes.getD i none = some a → l.nodes.getD j none = some b →
      PathNode_Equal a.node b.node = false

/-! ### Concrete scenarios used by witnesses and counterexamples -/

/-- Terrain oracle for the 5×5 open grid test scenario: uniform behavior and
elevation, no ledges, walkable exactly on map tiles `(0..4, 0..4)` (offset
coordinates `7..11`). -/
def openGridOracle : Oracle :=
  { behaviorAt := fun _ _ => 0
    elevationAt := fun _ _ => 3
    ledgeJumpDirection := fun _ _ => DIR_NONE
    getCollision := fun x y _ _ _ _ =>
      if 7 ≤ x ∧ x ≤ 11 ∧ 7 ≤ y ∧ y ≤ 11 then COLLISION_NONE else COLLISION_IMPASSABLE
    movingOnRockStairs := fun _ _ _ => false
    slowMovementOnStairs := false }

/-- The agent of the open-grid scenario: map tile `(0, 0)`, i.e. offset
coordinates `(7, 7)`, elevation 3, no forced direction. -/
def openGridObject : ObjectEvent :=
  { currentX := 7, currentY := 7, currentElevation := 3, directionOverwrite := DIR_NONE }

/-- Context of the concrete scenario: target tile `(3, 0)`, speed tier
"normal" (1), facing "unspecified" (`DIR_NONE`), node budget 16. -/
def openGridCtx : PathFinderContext :=
  CreatePathFinderContext openGridObject 3 0 DIR_NONE 1 16

/-- A fully permissive flat oracle (no collisions, uniform elevation). -/
def flatOracle : Oracle :=
  { behaviorAt := fun _ _ => 0
    elevationAt := fun _ _ => 3
    ledgeJumpDirection := fun _ _ => DIR_NONE
    getCollision := fun _ _ _ _ _ _ => COLLISION_NONE
    movingOnRockStairs := fun _ _ _ => false
    slowMovementOnStairs := false }

/-- A sample agent at offset coordinates `(7, 7)`. -/
def sampleObject : ObjectEvent :=
  { currentX := 7, currentY := 7, currentElevation := 3, directionOverwrite := DIR_NONE }

/-- A sample fresh context targeting map tile `(0, 0)` with budget 4. -/
def sampleCtx : PathFinderContext :=
  CreatePathFinderContext sampleObject 0 0 DIR_NONE 1 4

/-- The node `PathNode_Create sampleCtx flatOracle 8 7 DIR_SOUTH 0` produces
(Manhattan distance 1 from `(8, 7)` to the target `(7, 7)`). -/
def sampleNode : PathNode :=
  { parent := none, costG := 0, costF := 1, x := 8, y := 7, elevation := 3
    movementAction := MOVEMENT_ACTION_NONE, originDirection := DIR_NORTH }

/-- Oracle whose terrain reports a south ledge jump on every tile. -/
def ledgeOracle : Oracle :=
  { behaviorAt := fun _ _ => 0
    elevationAt := fun _ _ => 3
    ledgeJumpDirection := fun direction _ => if direction = DIR_SOUTH then DIR_SOUTH else DIR_NONE
    getCollision := fun _ _ _ _ _ _ => COLLISION_NONE
    movingOnRockStairs := fun _ _ _ => false
    slowMovementOnStairs := false }

/-- The settled node being expanded in the ledge scenario. -/
def ledgeNode : PathNode :=
  { parent := none, costG := 0, costF := 3, x := 7, y := 7, elevation := 3
    movementAction := MOVEMENT_ACTION_NONE, originDirection := DIR_NONE }

/-- A mid-search context whose current node is `ledgeNode` (retained at
index 0), targeting the tile two cells south. -/
def ledgeCtx : PathFinderContext :=
  { nodeFrontier := PathQueue_Create 4
    exploredNodes := PathList_Create 4
    objectEvent := sampleObject
    currentNode := some { idx := 0, node := ledgeNode }
    nodeBuffer := [ledgeNode]
    start := { x := 7, y := 7 }
    target := { x := 7, y := 9 }
    nodeCount := 1
    speed := 1
    maxNodes := 4
    facingDirection := DIR_NONE }

/-- The neighbor the ledge expansion retains: two tiles south, cost 2,
jump-south action. -/
def ledgeCreatedNode : PathNode :=
  { parent := some 0, costG := 2, costF := 2, x := 7, y := 9, elevation := 3
    movementAction := MOVEMENT_ACTION_JUMP_2_DOWN, originDirection := DIR_NORTH }

/-! ### Helper lemmas -/

theorem PathNode_Create_some (ctx : PathFinderContext) (oracle : Oracle) (x y : Int)
    (d g : Nat) (n : PathNode) (h : PathNode_Create ctx oracle x y d g = some n) :
    n = { parent := ctx.currentNode.map (fun e => e.idx)
          costG := g
          costF := g + (ManhattanDistance x y ctx.target.x ctx.target.y +
            ManhattanDistance x y ctx.target.x ctx.target.y / 2)
          x := x
          y := y
          elevation := PathNode_GetElevation oracle
            (ctx.currentNode.map fun e => e.node.elevation) x y
          movementAction := MOVEMENT_ACTION_NONE
          originDirection := OppositeDirection d } := by
  unfold PathNode_Create at h
  split at h
  · exact absurd h (by simp)
  · exact (Option.some.inj h).symm

theorem TryCreateNeighbor_ledge (oracle : Oracle) (ctx : PathFinderContext) (d : Nat)
    (cur : QEntry) (hcur : ctx.currentNode = some cur)
    (hledge : CheckForPathFinderCollision oracle cur.node.elevation
        (cur.node.x + gDirectionToVectorsX d) (cur.node.y + gDirectionToVectorsY d) d
        (oracle.behaviorAt cur.node.x cur.node.y)
        (oracle.behaviorAt (cur.node.x + gDirectionToVectorsX d)
          (cur.node.y + gDirectionToVectorsY d)) = COLLISION_LEDGE_JUMP) :
    TryCreateNeighbor oracle ctx d =
      match PathNode_Create ctx oracle (cur.node.x + gDirectionToVectorsX d * 2)
          (cur.node.y + gDirectionToVectorsY d * 2) d
          (cur.node.costG + sPrecomputedDistance d * 2) with
      | none => ctx
      | some neighbor =>
        if PathList_HasNode ctx.exploredNodes neighbor then ctx
        else RetainAndPush ctx { neighbor with movementAction := sJump2Movement d } := by
  simp only [TryCreateNeighbor, hcur, hledge]
  rw [if_neg (show COLLISION_LEDGE_JUMP ≠ COLLISION_NONE by decide)]
  rw [if_pos trivial]

theorem getD_replicate_none (n i : Nat) :
    (List.replicate n (none : Option QEntry)).getD i none = none := by
  rw [List.getD_eq_getElem?_getD, List.getElem?_replicate]
  split <;> rfl

theorem PathNode_Create_at_budget (ctx : PathFinderContext) (oracle : Oracle)
    (x y : Int) (d g : Nat) (h : ctx.maxNodes = ctx.nodeCount) :
    PathNode_Create ctx oracle x y d g = none := by
  unfold PathNode_Create
  rw [if_pos h]

theorem TryCreateNeighbor_at_budget (oracle : Oracle) (ctx : PathFinderContext) (d : Nat)
    (h : ctx.maxNodes = ctx.nodeCount) :
    TryCreateNeighbor oracle ctx d = ctx := by
  unfold TryCreateNeighbor
  cases hc : ctx.currentNode with
  | none => rfl
  | some cur =>
    simp only [PathNode_Create_at_budget _ oracle _ _ _ _ h]
    split
    · rfl
    · split <;> rfl

theorem PathQueue_Push_empty (c : Nat) (hc : 1 ≤ c) (e : QEntry) :
    PathQueue_Push { nodes := [], capacity := c } e =
      ({ nodes := [e], capacity := c }, true) := by
  unfold PathQueue_Push
  rw [if_neg (by simp; omega)]
  simp [PathQueue_HeapifyUp, PathQueue_HeapifyUpLoop]

theorem PathQueue_Pop_singleton (c : Nat) (e : QEntry) :
    PathQueue_Pop { nodes := [e], capacity := c } =
      some (e, { nodes := [], capacity := c }) := by
  simp [PathQueue_Pop, List.getD]

theorem PathQueue_Pop_nil (c : Nat) :
    PathQueue_Pop { nodes := [], capacity := c } = none := rfl

theorem PathList_TryInsertLoop_replicate (mask : Nat) (e : QEntry) (cap index : Nat)
    (hcap : 1 ≤ cap) :
    PathList_TryInsertLoop mask e cap (List.replicate cap none) index =
      (true, (List.replicate cap (none : Option QEntry)).set index (some e), some e) := by
  obtain ⟨k, rfl⟩ : ∃ k, cap = k + 1 := ⟨cap - 1, by omega⟩
  unfold PathList_TryInsertLoop
  rw [getD_replicate_none]

theorem PathList_TryInsert_fresh (tbl : PathList) (e : QEntry) (cap : Nat)
    (hn : tbl.nodes = List.replicate cap none) (hc : tbl.capacity = cap) (hcap : 1 ≤ cap) :
    PathList_TryInsert tbl e =
      (true,
        { tbl with
          nodes := (List.replicate cap (none : Option QEntry)).set
            (PathNode_Hash e.node &&& tbl.mask) (some e)
          size := tbl.size + 1 },
        some e) := by
  simp only [PathList_TryInsert, hn, hc]
  rw [PathList_TryInsertLoop_replicate _ _ _ _ hcap]
  simp

theorem PathFinderTargetReached_eq_false (ctx : PathFinderContext) (node : PathNode)
    (h : ctx.target.x ≠ node.x ∨ ctx.target.y ≠ node.y) :
    PathFinderTargetReached ctx node = false := by
  unfold PathFinderTargetReached
  rw [if_neg]
  rintro ⟨h1, h2⟩
  rcases h with h | h
  · exact h h1
  · exact h h2

theorem PathFinderTargetReached_eq_true (ctx : PathFinderContext) (node : PathNode)
    (h1 : ctx.target.x = node.x) (h2 : ctx.target.y = node.y) :
    PathFinderTargetReached ctx node = true := by
  unfold PathFinderTargetReached
  rw [if_pos ⟨h1, h2⟩]

theorem foldl_TryCreateNeighbor_at_budget (oracle : Oracle) (ctx : PathFinderContext)
    (ds : List Nat) (h : ctx.maxNodes = ctx.nodeCount) :
    List.foldl (fun c d => TryCreateNeighbor oracle c d) ctx ds = ctx := by
  induction ds with
  | nil => rfl
  | cons d ds ih => rw [List.foldl_cons, TryCreateNeighbor_at_budget oracle ctx d h, ih]

theorem shiftRight_le_self (m k : Nat) : m >>> k ≤ m := by
  rw [Nat.shiftRight_eq_div_pow]
  exact Nat.div_le_self m (2 ^ k)

theorem SmearBits_lt (m t : Nat) (h : m < 2 ^ t) : SmearBits m < 2 ^ t := by
  unfold SmearBits
  have step : ∀ a k : Nat, a < 2 ^ t → a ||| (a >>> k) < 2 ^ t := fun a k ha =>
    Nat.or_lt_two_pow ha (Nat.lt_of_le_of_lt (shiftRight_le_self _ _) ha)
  exact step _ 16 (step _ 8 (step _ 4 (step _ 2 (step _ 1 h))))

theorem NextPowerOfTwo_pos (n : Nat) (h : n ≤ 2 ^ 31) : 1 ≤ NextPowerOfTwo n := by
  unfold NextPowerOfTwo
  split
  · omega
  · have hm : n - 1 < 2 ^ 31 := by omega
    have hs : SmearBits (n - 1) < 2 ^ 31 := SmearBits_lt _ _ hm
    have hlt : SmearBits (n - 1) + 1 < 2 ^ 32 := by
      have : (2 : Nat) ^ 31 < 2 ^ 32 := by norm_num
      omega
    rw [Nat.mod_eq_of_lt hlt]
    omega

theorem ReconstructPath_no_parent (node : PathNode) (hp : node.parent = none) (facing : Nat) :
    ReconstructPath [node] 0 facing =
      (if facing ≠ DIR_NONE then [MOVEMENT_ACTION_FACE_DOWN + facing - 1] else []) ++
        [MOVEMENT_ACTION_GENERATED_END] := by
  unfold ReconstructPath ReconstructPathBuffer
  have hchain : ChainActions [node] ([node] : List PathNode).length 0 = [] := by
    simp only [List.length_singleton, ChainActions, List.getD, List.get?_cons_zero,
      Option.getD_some, hp]
  rw [hchain]
  simp

/-! ### Claim theorems -/

/-- C1 (amended): on the 5×5 open grid with start `(0,0)`, target `(3,0)`,
normal speed and unspecified facing, the action sequence returned by the
search is exactly three step-east actions at normal speed followed by the
end marker; the begin marker heads the allocated buffer
(`ReconstructPathBuffer`) but the returned sequence (`ReconstructPath`,
i.e. `movementScript + 1`) starts after it. -/
theorem C1_open_grid_path :
    FindPathForObjectEvent openGridOracle openGridCtx 16 =
      some [MOVEMENT_ACTION_WALK_NORMAL_RIGHT, MOVEMENT_ACTION_WALK_NORMAL_RIGHT,
        MOVEMENT_ACTION_WALK_NORMAL_RIGHT, MOVEMENT_ACTION_GENERATED_END] ∧
    ∀ nodeBuffer targetIndex facing,
      ReconstructPathBuffer nodeBuffer targetIndex facing =
        MOVEMENT_ACTION_GENERATED_BEGIN :: ReconstructPath nodeBuffer targetIndex facing :=
  ⟨by decide, fun _ _ _ => rfl⟩

/-- C1 (counterexample): the returned sequence of the concrete scenario does
not begin with the begin marker — the claimed value
`[begin, east, east, east, end]` is not what the search returns. -/
theorem C1_counterexample :
    FindPathForObjectEvent openGridOracle openGridCtx 16 ≠
      some [MOVEMENT_ACTION_GENERATED_BEGIN, MOVEMENT_ACTION_WALK_NORMAL_RIGHT,
        MOVEMENT_ACTION_WALK_NORMAL_RIGHT, MOVEMENT_ACTION_WALK_NORMAL_RIGHT,
        MOVEMENT_ACTION_GENERATED_END] := by decide

/-- C2: when the collision classification for a cardinal candidate direction
is `COLLISION_LEDGE_JUMP`, any neighbor node the expansion retains sits
exactly two tiles away in that direction, carries `costG = costG + 2`
(never `+ 1`), and its movement action is the jump action for the
direction. -/
theorem C2_ledge_jump_two_tiles (oracle : Oracle) (ctx : PathFinderContext) (d : Nat)
    (cur : QEntry) (hcur : ctx.currentNode = some cur)
    (hd : d ∈ [DIR_SOUTH, DIR_NORTH, DIR_WEST, DIR_EAST])
    (hledge : CheckForPathFinderCollision oracle cur.node.elevation
        (cur.node.x + gDirectionToVectorsX d) (cur.node.y + gDirectionToVectorsY d) d
        (oracle.behaviorAt cur.node.x cur.node.y)
        (oracle.behaviorAt (cur.node.x + gDirectionToVectorsX d)
          (cur.node.y + gDirectionToVectorsY d)) = COLLISION_LEDGE_JUMP)
    (n : PathNode)
    (hbuf : (TryCreateNeighbor oracle ctx d).nodeBuffer = ctx.nodeBuffer ++ [n]) :
    n.x = cur.node.x + 2 * gDirectionToVectorsX d ∧
    n.y = cur.node.y + 2 * gDirectionToVectorsY d ∧
    n.costG = cur.node.costG + 2 ∧
    n.movementAction = sJump2Movement d := by
  have hdist : sPrecomputedDistance d = 1 := by fin_cases hd <;> decide
  rw [TryCreateNeighbor_ledge oracle ctx d cur hcur hledge] at hbuf
  cases hc : PathNode_Create ctx oracle (cur.node.x + gDirectionToVectorsX d * 2)
      (cur.node.y + gDirectionToVectorsY d * 2) d
      (cur.node.costG + sPrecomputedDistance d * 2) with
  | none =>
    rw [hc] at hbuf
    exact absurd hbuf (by simp)
  | some neighbor =>
    rw [hc] at hbuf
    dsimp only [] at hbuf
    by_cases hh : PathList_HasNode ctx.exploredNodes neighbor = true
    · rw [if_pos hh] at hbuf
      exact absurd hbuf (by simp)
    · rw [if_neg hh] at hbuf
      simp only [RetainAndPush] at hbuf
      split at hbuf
      · have hn : n = { neighbor with movementAction := sJump2Movement d } := by
          have hstep := List.append_cancel_left hbuf
          simpa using hstep.symm
        rw [PathNode_Create_some _ _ _ _ _ _ _ hc] at hn
        subst hn
        refine ⟨by simp [mul_comm], by simp [mul_comm], by simp [hdist], rfl⟩
      · exact absurd hbuf (by simp)

/-- C2 (witness): in the concrete south-ledge scenario the expansion retains
`ledgeCreatedNode`, two tiles south with cost 2 and the jump-south action. -/
theorem C2_ledge_jump_two_tiles_witness :
    (TryCreateNeighbor ledgeOracle ledgeCtx DIR_SOUTH).nodeBuffer =
      ledgeCtx.nodeBuffer ++ [ledgeCreatedNode] ∧
    (ledgeCreatedNode.x = ledgeNode.x + 2 * gDirectionToVectorsX DIR_SOUTH ∧
      ledgeCreatedNode.y = ledgeNode.y + 2 * gDirectionToVectorsY DIR_SOUTH ∧
      ledgeCreatedNode.costG = ledgeNode.costG + 2 ∧
      ledgeCreatedNode.movementAction = sJump2Movement DIR_SOUTH) :=
  ⟨by decide,
    C2_ledge_jump_two_tiles ledgeOracle ledgeCtx DIR_SOUTH { idx := 0, node := ledgeNode }
      rfl (by decide) (by decide) ledgeCreatedNode (by decide)⟩

/-- C5: a node created by traveling in cardinal direction `d` stores
`originDirection = OppositeDirection d`, and the expansion candidates for
that node are exactly the three cardinal directions with the reverse of the
travel direction removed; a node created with `DIR_NONE` (the start node)
has `originDirection = DIR_NONE`, whose candidate list is all four cardinal
directions. -/
theorem C5_expansion_candidates (ctx : PathFinderContext) (oracle : Oracle) (x y : Int)
    (d g : Nat) (n : PathNode) (hd : d ∈ [DIR_SOUTH, DIR_NORTH, DIR_WEST, DIR_EAST])
    (h : PathNode_Create ctx oracle x y d g = some n) :
    n.originDirection = OppositeDirection d ∧
    expansionDirs n.originDirection =
      [DIR_SOUTH, DIR_NORTH, DIR_WEST, DIR_EAST].filter (fun c => c != OppositeDirection d) ∧
    expansionDirs DIR_NONE = [DIR_SOUTH, DIR_NORTH, DIR_WEST, DIR_EAST] ∧
    OppositeDirection DIR_NONE = DIR_NONE := by
  have horigin : n.originDirection = OppositeDirection d := by
    rw [PathNode_Create_some _ _ _ _ _ _ _ h]
  refine ⟨horigin, ?_, by decide, rfl⟩
  rw [horigin]
  fin_cases hd <;> decide

/-- C5 (witness): instantiation at the sample context, direction south. -/
theorem C5_expansion_candidates_witness :
    DIR_SOUTH ∈ [DIR_SOUTH, DIR_NORTH, DIR_WEST, DIR_EAST] ∧
    PathNode_Create sampleCtx flatOracle 8 7 DIR_SOUTH 0 = some sampleNode ∧
    (sampleNode.originDirection = OppositeDirection DIR_SOUTH ∧
      expansionDirs sampleNode.originDirection =
        [DIR_SOUTH, DIR_NORTH, DIR_WEST, DIR_EAST].filter
          (fun c => c != OppositeDirection DIR_SOUTH) ∧
      expansionDirs DIR_NONE = [DIR_SOUTH, DIR_NORTH, DIR_WEST, DIR_EAST] ∧
      OppositeDirection DIR_NONE = DIR_NONE) :=
  ⟨by decide, by decide,
    C5_expansion_candidates sampleCtx flatOracle 8 7 DIR_SOUTH 0 sampleNode
      (by decide) (by decide)⟩

/-- C6 (amended): every node `PathNode_Create` produces has
`costF = costG + (d + d / 2)` where `d` is the Manhattan distance to the
target and `/` is integer division — the integer floor of the weight-1.5
heuristic, not the exact product `1.5 * d` (they differ at odd `d`). -/
theorem C6_costF_floor_heuristic (ctx : PathFinderContext) (oracle : Oracle) (x y : Int)
    (d g : Nat) (n : PathNode) (h : PathNode_Create ctx oracle x y d g = some n) :
    n.costG = g ∧
    n.costF = g + (ManhattanDistance x y ctx.target.x ctx.target.y +
      ManhattanDistance x y ctx.target.x ctx.target.y / 2) := by
  rw [PathNode_Create_some _ _ _ _ _ _ _ h]
  exact ⟨rfl, rfl⟩

/-- C6 (witness): instantiation at the sample context (distance 1, so
`costF = 0 + (1 + 0) = 1`). -/
theorem C6_costF_floor_heuristic_witness :
    PathNode_Create sampleCtx flatOracle 8 7 DIR_SOUTH 0 = some sampleNode ∧
    (sampleNode.costG = 0 ∧
      sampleNode.costF = 0 + (ManhattanDistance 8 7 sampleCtx.target.x sampleCtx.target.y +
        ManhattanDistance 8 7 sampleCtx.target.x sampleCtx.target.y / 2)) :=
  ⟨by decide, C6_costF_floor_heuristic sampleCtx flatOracle 8 7 DIR_SOUTH 0 sampleNode (by decide)⟩

/-- C6 (counterexample): at Manhattan distance 1 the created node has
`costF = 1`, but `costG + 1.5 * distance` would demand `costF = 1.5`
(equivalently `2 * costF = 2 * costG + 3 * distance` fails: `2 ≠ 3`), so
`costF` does not equal `costG` plus the heuristic times exactly 1.5. -/
theorem C6_costF_counterexample :
    (PathNode_Create sampleCtx flatOracle 8 7 DIR_SOUTH 0).isSome = true ∧
    ¬(2 * ((PathNode_Create sampleCtx flatOracle 8 7 DIR_SOUTH 0).getD default).costF =
        2 * ((PathNode_Create sampleCtx flatOracle 8 7 DIR_SOUTH 0).getD default).costG +
          3 * ManhattanDistance 8 7 sampleCtx.target.x sampleCtx.target.y) := by decide

/-- C7: with node budget 1 and start different from target, the search
always fails, for every terrain oracle: the start node consumes the whole
budget, every neighbor allocation is refused, and the frontier empties. -/
theorem C7_budget_one_fails (oracle : Oracle) (obj : ObjectEvent) (tx ty : Int) (f sp : Nat)
    (hne : obj.currentX ≠ tx + MAP_OFFSET ∨ obj.currentY ≠ ty + MAP_OFFSET) :
    FindPathForObjectEvent oracle (CreatePathFinderContext obj tx ty f sp 1) 1 = none := by
  have hctx : CreatePathFinderContext obj tx ty f sp 1 =
      { nodeFrontier := { nodes := [], capacity := 1 }
        exploredNodes := { nodes := [none], capacity := 1, mask := 0, size := 0 }
        objectEvent := obj
        currentNode := none
        nodeBuffer := []
        start := { x := obj.currentX, y := obj.currentY }
        target := { x := tx + MAP_OFFSET, y := ty + MAP_OFFSET }
        nodeCount := 0
        speed := if sp ≥ 4 then 3 else sp
        maxNodes := 1
        facingDirection := if f > DIR_EAST then f - DIR_EAST else f } := rfl
  rw [hctx]
  unfold FindPathForObjectEvent
  rw [if_neg (by decide : ¬(1 = 0))]
  simp only [PathNode_Create]
  rw [if_neg (by decide : ¬(1 = 0))]
  dsimp only []
  rw [PathQueue_Push_empty 1 (by decide)]
  simp only [List.nil_append, Nat.zero_add, Option.map_none',
    show OppositeDirection DIR_NONE = DIR_NONE from rfl]
  simp only [FindPathLoop, PathQueue_Pop_singleton]
  rw [PathList_TryInsert_fresh _ _ 1 rfl rfl (by decide)]
  simp only [Bool.true_eq_false, if_false, reduceCtorEq, ite_false]
  rw [PathFinderTargetReached_eq_false]
  · simp only [Bool.false_eq_true, if_false, reduceCtorEq, ite_false]
    rw [foldl_TryCreateNeighbor_at_budget oracle _ _ rfl]
    dsimp only []
    rw [PathQueue_Pop_nil]
  · rcases hne with h | h
    · exact Or.inl (fun hx => h hx.symm)
    · exact Or.inr (fun hy => h hy.symm)

/-- C7 (witness): concrete instance — budget 1, start `(7,7)`, target
`(10,7)`, flat oracle. -/
theorem C7_budget_one_fails_witness :
    (sampleObject.currentX ≠ (3 : Int) + MAP_OFFSET ∨
      sampleObject.currentY ≠ (0 : Int) + MAP_OFFSET) ∧
    FindPathForObjectEvent flatOracle (CreatePathFinderContext sampleObject 3 0 DIR_NONE 1 1) 1 =
      none :=
  ⟨Or.inl (by decide),
    C7_budget_one_fails flatOracle sampleObject 3 0 DIR_NONE 1 (Or.inl (by decide))⟩

/-- C8: whenever the start position equals the target position and the node
budget is at least 1 (and within the 32-bit range the table sizing
arithmetic supports), the search succeeds with zero movement steps: the
returned sequence is just the optional face-direction action followed by
the end marker. -/
theorem C8_start_equals_target (oracle : Oracle) (obj : ObjectEvent) (tx ty : Int)
    (f sp mn : Nat) (hmn : 1 ≤ mn) (hbound : mn ≤ 2 ^ 31)
    (hx : obj.currentX = tx + MAP_OFFSET) (hy : obj.currentY = ty + MAP_OFFSET) :
    FindPathForObjectEvent oracle (CreatePathFinderContext obj tx ty f sp mn) mn =
      some ((if (if DIR_EAST < f then f - DIR_EAST else f) ≠ DIR_NONE
          then [MOVEMENT_ACTION_FACE_DOWN + (if DIR_EAST < f then f - DIR_EAST else f) - 1]
          else []) ++ [MOVEMENT_ACTION_GENERATED_END]) := by
  have hctx : CreatePathFinderContext obj tx ty f sp mn =
      { nodeFrontier := { nodes := [], capacity := mn }
        exploredNodes := { nodes := List.replicate (NextPowerOfTwo mn) none
                           capacity := NextPowerOfTwo mn
                           mask := NextPowerOfTwo mn - 1, size := 0 }
        objectEvent := obj
        currentNode := none
        nodeBuffer := []
        start := { x := obj.currentX, y := obj.currentY }
        target := { x := tx + MAP_OFFSET, y := ty + MAP_OFFSET }
        nodeCount := 0
        speed := if sp ≥ 4 then 3 else sp
        maxNodes := mn
        facingDirection := if f > DIR_EAST then f - DIR_EAST else f } := rfl
  rw [hctx]
  unfold FindPathForObjectEvent
  rw [if_neg (by omega : ¬(mn = 0))]
  simp only [PathNode_Create]
  rw [if_neg (by omega : ¬(mn = 0))]
  dsimp only []
  rw [PathQueue_Push_empty mn hmn]
  simp only [List.nil_append, Nat.zero_add, Option.map_none',
    show OppositeDirection DIR_NONE = DIR_NONE from rfl]
  simp only [FindPathLoop, PathQueue_Pop_singleton]
  rw [PathList_TryInsert_fresh _ _ (NextPowerOfTwo mn) rfl rfl (NextPowerOfTwo_pos mn hbound)]
  simp only [Bool.true_eq_false, if_false, reduceCtorEq, ite_false]
  rw [PathFinderTargetReached_eq_true _ _ (by exact hx.symm) (by exact hy.symm)]
  simp only [if_true]
  rw [ReconstructPath_no_parent _ rfl]

/-- C8 (witness): start `(7,7)` equals target tile `(0,0) + offset`, budget
4, facing unspecified — the result is just the end marker. -/
theorem C8_start_equals_target_witness :
    1 ≤ 4 ∧ 4 ≤ 2 ^ 31 ∧ sampleObject.currentX = (0 : Int) + MAP_OFFSET ∧
    sampleObject.currentY = (0 : Int) + MAP_OFFSET ∧
    FindPathForObjectEvent flatOracle (CreatePathFinderContext sampleObject 0 0 DIR_NONE 1 4) 4 =
      some ((if (if DIR_EAST < DIR_NONE then DIR_NONE - DIR_EAST else DIR_NONE) ≠ DIR_NONE
          then [MOVEMENT_ACTION_FACE_DOWN +
            (if DIR_EAST < DIR_NONE then DIR_NONE - DIR_EAST else DIR_NONE) - 1]
          else []) ++ [MOVEMENT_ACTION_GENERATED_END]) :=
  ⟨by decide, by norm_num, by decide, by decide,
    C8_start_equals_target flatOracle sampleObject 0 0 DIR_NONE 1 4 (by decide) (by norm_num)
      (by decide) (by decide)⟩

/-- C9: invoking the search with a node budget of 0 returns the failure
result immediately — no node is created and the loop is never entered. -/
theorem C9_zero_budget_failure (oracle : Oracle) (ctx : PathFinderContext) :
    FindPathForObjectEvent oracle ctx 0 = none := rfl

/-- C10: a requested facing direction in `5..8` is silently folded back by
`DIR_EAST` into the cardinal range `1..4` by `CreatePathFinderContext`, and
the serialized face action is computed from the folded value
(`MOVEMENT_ACTION_FACE_DOWN + facing - 1`). -/
theorem C10_facing_normalization (obj : ObjectEvent) (tx ty : Int) (f sp mn : Nat)
    (nodeBuffer : List PathNode) (targetIndex : Nat)
    (h4 : DIR_EAST < f) (h8 : f ≤ 8) :
    (CreatePathFinderContext obj tx ty f sp mn).facingDirection = f - DIR_EAST ∧
    1 ≤ f - DIR_EAST ∧ f - DIR_EAST ≤ 4 ∧
    ReconstructPath nodeBuffer targetIndex
        (CreatePathFinderContext obj tx ty f sp mn).facingDirection =
      (ChainActions nodeBuffer nodeBuffer.length targetIndex).reverse ++
        [MOVEMENT_ACTION_FACE_DOWN + (f - DIR_EAST) - 1, MOVEMENT_ACTION_GENERATED_END] := by
  have hface : (CreatePathFinderContext obj tx ty f sp mn).facingDirection = f - DIR_EAST := by
    unfold CreatePathFinderContext
    dsimp only []
    rw [if_pos h4]
  have h4n : 4 < f := h4
  have h8n : f ≤ 8 := h8
  refine ⟨hface, ?_, ?_, ?_⟩
  · show 1 ≤ f - 4
    omega
  · show f - 4 ≤ 4
    omega
  · rw [hface]
    unfold ReconstructPath ReconstructPathBuffer
    rw [if_pos (show f - DIR_EAST ≠ DIR_NONE from by show f - 4 ≠ 0; omega)]
    simp

/-- C10 (witness): facing 6 is folded to 2 (north); the serialized face
action is `MOVEMENT_ACTION_FACE_DOWN + 2 - 1 = MOVEMENT_ACTION_FACE_UP`. -/
theorem C10_facing_normalization_witness :
    DIR_EAST < 6 ∧ (6 : Nat) ≤ 8 ∧
    (CreatePathFinderContext sampleObject 0 0 6 1 4).facingDirection = 6 - DIR_EAST ∧
    1 ≤ 6 - DIR_EAST ∧ 6 - DIR_EAST ≤ 4 ∧
    ReconstructPath [] 0 (CreatePathFinderContext sampleObject 0 0 6 1 4).facingDirection =
      (ChainActions [] ([] : List PathNode).length 0).reverse ++
        [MOVEMENT_ACTION_FACE_DOWN + (6 - DIR_EAST) - 1, MOVEMENT_ACTION_GENERATED_END] := by
  refine ⟨by decide, by decide, ?_⟩
  have h := C10_facing_normalization sampleObject 0 0 6 1 4 [] 0 (by decide) (by decide)
  exact ⟨h.1, h.2.1, h.2.2.1, h.2.2.2⟩

theorem getD_set_self_q (l : List QEntry) (i : Nat) (h : i < l.length) (e : QEntry) :
    (l.set i e).getD i default = e := by
  rw [List.getD_eq_getElem?_getD, List.getElem?_set_self h]
  rfl

theorem getD_set_ne_q (l : List QEntry) {i j : Nat} (h : i ≠ j) (e : QEntry) :
    (l.set i e).getD j default = l.getD j default := by
  rw [List.getD_eq_getElem?_getD, List.getElem?_set_ne h, ← List.getD_eq_getElem?_getD]

theorem heapKey_set_self (l : List QEntry) (i : Nat) (h : i < l.length) (e : QEntry) :
    heapKey (l.set i e) i = e.node.costF := by
  unfold heapKey
  rw [getD_set_self_q l i h e]

theorem heapKey_set_ne (l : List QEntry) {i j : Nat} (h : i ≠ j) (e : QEntry) :
    heapKey (l.set i e) j = heapKey l j := by
  unfold heapKey
  rw [getD_set_ne_q l h e]

theorem hasLowerCost_iff (a b : PathNode) :
    PathNode_HasLowerCost a b = true ↔ a.costF < b.costF := by
  simp [PathNode_HasLowerCost]

theorem HeapifyUpLoop_heap (fuel : Nat) :
    ∀ (l : List QEntry) (temp : QEntry) (i : Nat),
      i < l.length → i + 1 ≤ fuel →
      (∀ j, 0 < j → j < l.length → j ≠ i → heapKey l ((j - 1) / 2) ≤ heapKey l j) →
      (∀ j, 0 < j → j < l.length → (j - 1) / 2 = i → temp.node.costF ≤ heapKey l j) →
      (∀ j, 0 < j → j < l.length → (j - 1) / 2 = i → 0 < i →
        heapKey l ((i - 1) / 2) ≤ heapKey l j) →
      IsHeap (PathQueue_HeapifyUpLoop fuel l temp i) := by
  induction fuel with
  | zero => intro l temp i hi hfuel; omega
  | succ fuel ih =>
    intro l temp i hi hfuel h1 h2 h3
    unfold PathQueue_HeapifyUpLoop
    simp only [GetParent]
    by_cases hz : i = 0
    · subst hz
      rw [if_pos rfl]
      intro j hj0 hjlen
      rw [List.length_set] at hjlen
      by_cases hpj : (j - 1) / 2 = 0
      · rw [hpj, heapKey_set_self l 0 hi temp, heapKey_set_ne l (by omega) temp]
        exact h2 j hj0 hjlen hpj
      · rw [heapKey_set_ne l (by omega : (0 : Nat) ≠ (j - 1) / 2) temp,
          heapKey_set_ne l (by omega : (0 : Nat) ≠ j) temp]
        exact h1 j hj0 hjlen (by omega)
    · rw [if_neg hz]
      have hp_lt : (i - 1) / 2 < i := by omega
      by_cases hguard :
          PathNode_HasLowerCost temp.node (l.getD ((i - 1) / 2) default).node = true
      · rw [if_pos hguard]
        rw [hasLowerCost_iff] at hguard
        have hguard' : temp.node.costF < heapKey l ((i - 1) / 2) := hguard
        apply ih
        · rw [List.length_set]; omega
        · omega
        · -- heap except at the new hole (i-1)/2
          intro j hj0 hjlen hjp
          rw [List.length_set] at hjlen
          by_cases hji : j = i
          · rw [hji, heapKey_set_self l i hi, heapKey_set_ne l (by omega : i ≠ (i - 1) / 2)]
            exact Nat.le_refl _
          · rw [heapKey_set_ne l (by omega : i ≠ j)]
            by_cases hpar : (j - 1) / 2 = i
            · rw [hpar, heapKey_set_self l i hi]
              exact h3 j hj0 hjlen hpar (by omega)
            · rw [heapKey_set_ne l (by omega : i ≠ (j - 1) / 2)]
              exact h1 j hj0 hjlen hji
        · -- children of the new hole dominated by temp
          intro j hj0 hjlen hjp
          rw [List.length_set] at hjlen
          by_cases hji : j = i
          · rw [hji, heapKey_set_self l i hi]
            exact Nat.le_of_lt hguard'
          · rw [heapKey_set_ne l (by omega : i ≠ j)]
            have := h1 j hj0 hjlen hji
            rw [hjp] at this
            exact Nat.le_trans (Nat.le_of_lt hguard') this
        · -- grandparent of the new hole dominates its children
          intro j hj0 hjlen hjp hp0
          rw [List.length_set] at hjlen
          rw [heapKey_set_ne l (by omega : i ≠ ((i - 1) / 2 - 1) / 2)]
          have hple : heapKey l (((i - 1) / 2 - 1) / 2) ≤ heapKey l ((i - 1) / 2) :=
            h1 ((i - 1) / 2) hp0 (by omega) (by omega)
          by_cases hji : j = i
          · rw [hji, heapKey_set_self l i hi]
            exact hple
          · rw [heapKey_set_ne l (by omega : i ≠ j)]
            have := h1 j hj0 hjlen hji
            rw [hjp] at this
            exact Nat.le_trans hple this
      · rw [if_neg hguard]
        have hguard2 : heapKey l ((i - 1) / 2) ≤ temp.node.costF := by
          have hnot : ¬(temp.node.costF < (l.getD ((i - 1) / 2) default).node.costF) := by
            intro hlt
            exact hguard ((hasLowerCost_iff _ _).mpr hlt)
          exact Nat.le_of_not_lt hnot
        intro j hj0 hjlen
        rw [List.length_set] at hjlen
        by_cases hji : j = i
        · rw [hji, heapKey_set_self l i hi, heapKey_set_ne l (by omega : i ≠ (i - 1) / 2)]
          exact hguard2
        · rw [heapKey_set_ne l (by omega : i ≠ j)]
          by_cases hpar : (j - 1) / 2 = i
          · rw [hpar, heapKey_set_self l i hi]
            exact h2 j hj0 hjlen hpar
          · rw [heapKey_set_ne l (by omega : i ≠ (j - 1) / 2)]
            exact h1 j hj0 hjlen hji

theorem heapKey_append_lt (l : List QEntry) (e : QEntry) (j : Nat) (h : j < l.length) :
    heapKey (l ++ [e]) j = heapKey l j := by
  unfold heapKey
  rw [List.getD_eq_getElem?_getD, List.getElem?_append_left h, ← List.getD_eq_getElem?_getD]

theorem PathQueue_Push_isHeap (q : PathQueue) (e : QEntry) (h : IsHeap q.nodes) :
    IsHeap (PathQueue_Push q e).1.nodes := by
  unfold PathQueue_Push
  split
  · exact h
  · show IsHeap (PathQueue_HeapifyUp (q.nodes ++ [e]) q.nodes.length)
    unfold PathQueue_HeapifyUp
    apply HeapifyUpLoop_heap
    · simp
    · exact Nat.le_refl _
    · intro j hj0 hjlen hjne
      rw [List.length_append, List.length_singleton] at hjlen
      have hjlt : j < q.nodes.length := by omega
      rw [heapKey_append_lt _ _ _ hjlt, heapKey_append_lt _ _ _ (by omega)]
      exact h j hj0 hjlt
    · intro j hj0 hjlen hpar
      rw [List.length_append, List.length_singleton] at hjlen
      omega
    · intro j hj0 hjlen hpar hpos
      rw [List.length_append, List.length_singleton] at hjlen
      omega

theorem HeapifyDownLoop_heap (fuel : Nat) :
    ∀ (l : List QEntry) (temp : QEntry) (i : Nat),
      i < l.length → l.length - i ≤ fuel →
      (∀ j, 0 < j → j < l.length → (j - 1) / 2 ≠ i → heapKey l ((j - 1) / 2) ≤ heapKey l j) →
      (0 < i → heapKey l ((i - 1) / 2) ≤ temp.node.costF) →
      (∀ j, 0 < j → j < l.length → (j - 1) / 2 = i → 0 < i →
        heapKey l ((i - 1) / 2) ≤ heapKey l j) →
      IsHeap (PathQueue_HeapifyDownLoop fuel l temp i) := by
  induction fuel with
  | zero => intro l temp i hi hfuel; omega
  | succ fuel ih =>
    intro l temp i hi hfuel ha hb hc
    unfold PathQueue_HeapifyDownLoop
    simp only [GetLeftChild]
    by_cases hleft : 2 * i + 1 ≥ l.length
    · rw [if_pos hleft]
      intro j hj0 hjlen
      rw [List.length_set] at hjlen
      by_cases hji : j = i
      · rw [hji, heapKey_set_self l i hi, heapKey_set_ne l (by omega : i ≠ (i - 1) / 2)]
        exact hb (by omega)
      · by_cases hpar : (j - 1) / 2 = i
        · omega
        · rw [heapKey_set_ne l (by omega : i ≠ j),
            heapKey_set_ne l (by omega : i ≠ (j - 1) / 2)]
          exact ha j hj0 hjlen hpar
    · rw [if_neg hleft]
      set best :=
        if 2 * i + 1 + 1 < l.length ∧
            PathNode_HasLowerCost (l.getD (2 * i + 1 + 1) default).node
              (l.getD (2 * i + 1) default).node = true
        then 2 * i + 1 + 1 else 2 * i + 1 with hbest
      have hbest_cases : best = 2 * i + 1 ∨ best = 2 * i + 2 := by
        rw [hbest]
        split
        · right; rfl
        · left; rfl
      have hbest_lt : best < l.length := by
        rw [hbest]
        split
        · omega
        · omega
      have hbest_gt : i < best := by rcases hbest_cases with h' | h' <;> omega
      have hbest_parent : (best - 1) / 2 = i := by rcases hbest_cases with h' | h' <;> omega
      have hbest_min_left : heapKey l best ≤ heapKey l (2 * i + 1) := by
        rw [hbest]
        split
        · next hcond =>
          exact Nat.le_of_lt ((hasLowerCost_iff _ _).mp hcond.2)
        · exact Nat.le_refl _
      have hbest_min_right : 2 * i + 2 < l.length → heapKey l best ≤ heapKey l (2 * i + 2) := by
        intro hr
        rw [hbest]
        split
        · exact Nat.le_refl _
        · next hcond =>
          have : ¬(PathNode_HasLowerCost (l.getD (2 * i + 1 + 1) default).node
              (l.getD (2 * i + 1) default).node = true) := by
            intro hx
            exact hcond ⟨by omega, hx⟩
          have hnotlt : ¬(heapKey l (2 * i + 2) < heapKey l (2 * i + 1)) := by
            intro hx
            exact this ((hasLowerCost_iff _ _).mpr hx)
          exact Nat.le_of_not_lt hnotlt
      by_cases hg : PathNode_HasLowerCost (l.getD best default).node temp.node = true
      · rw [if_pos hg]
        have hg' : heapKey l best < temp.node.costF := (hasLowerCost_iff _ _).mp hg
        apply ih
        · rw [List.length_set]; exact hbest_lt
        · rw [List.length_set]; omega
        · -- heap except below the new hole
          intro j hj0 hjlen hjp
          rw [List.length_set] at hjlen
          by_cases hji : j = i
          · rw [hji, heapKey_set_self l i hi,
              heapKey_set_ne l (by omega : i ≠ (i - 1) / 2)]
            exact hc best (by omega) hbest_lt hbest_parent (by omega)
          · rw [heapKey_set_ne l (by omega : i ≠ j)]
            by_cases hpar : (j - 1) / 2 = i
            · rw [hpar, heapKey_set_self l i hi]
              have hj_child : j = 2 * i + 1 ∨ j = 2 * i + 2 := by omega
              rcases hj_child with hj' | hj'
              · rw [hj']; exact hbest_min_left
              · rw [hj']; exact hbest_min_right (by omega)
            · rw [heapKey_set_ne l (by omega : i ≠ (j - 1) / 2)]
              exact ha j hj0 hjlen hpar
        · -- parent of the new hole does not exceed temp
          intro hbest0
          rw [hbest_parent, heapKey_set_self l i hi]
          exact Nat.le_of_lt hg'
        · -- parent of the new hole does not exceed its children
          intro j hj0 hjlen hpar hbest0
          rw [List.length_set] at hjlen
          rw [hbest_parent, heapKey_set_self l i hi,
            heapKey_set_ne l (by omega : i ≠ j)]
          have hx := ha j hj0 hjlen (by omega)
          rw [hpar] at hx
          exact hx
      · rw [if_neg hg]
        have hg2 : temp.node.costF ≤ heapKey l best := by
          have hnot : ¬(heapKey l best < temp.node.costF) := by
            intro hx
            exact hg ((hasLowerCost_iff _ _).mpr hx)
          exact Nat.le_of_not_lt hnot
        intro j hj0 hjlen
        rw [List.length_set] at hjlen
        by_cases hji : j = i
        · rw [hji, heapKey_set_self l i hi, heapKey_set_ne l (by omega : i ≠ (i - 1) / 2)]
          exact hb (by omega)
        · rw [heapKey_set_ne l (by omega : i ≠ j)]
          by_cases hpar : (j - 1) / 2 = i
          · rw [hpar, heapKey_set_self l i hi]
            have hj_child : j = 2 * i + 1 ∨ j = 2 * i + 2 := by omega
            rcases hj_child with hj' | hj'
            · rw [hj']; exact Nat.le_trans hg2 hbest_min_left
            · rw [hj']; exact Nat.le_trans hg2 (hbest_min_right (by omega))
          · rw [heapKey_set_ne l (by omega : i ≠ (j - 1) / 2)]
            exact ha j hj0 hjlen hpar

theorem getD_dropLast_q (l : List QEntry) (j : Nat) (h : j < l.length - 1) :
    l.dropLast.getD j default = l.getD j default := by
  rw [List.getD_eq_getElem?_getD, List.getElem?_dropLast, if_pos h,
    ← List.getD_eq_getElem?_getD]

theorem heapKey_dropLast (l : List QEntry) (j : Nat) (h : j < l.length - 1) :
    heapKey l.dropLast j = heapKey l j := by
  unfold heapKey
  rw [getD_dropLast_q l j h]

theorem PathQueue_Pop_isHeap (q : PathQueue) (h : IsHeap q.nodes) (out : QEntry)
    (q2 : PathQueue) (hpop : PathQueue_Pop q = some (out, q2)) : IsHeap q2.nodes := by
  unfold PathQueue_Pop at hpop
  cases hq : q.nodes with
  | nil => rw [hq] at hpop; exact absurd hpop (by simp)
  | cons head tail =>
    rw [hq] at hpop
    dsimp only [] at hpop
    by_cases hsize : (head :: tail).length - 1 = 0
    · rw [if_pos hsize] at hpop
      injection hpop with h1
      have h2 := congrArg Prod.snd h1
      dsimp only [] at h2
      rw [← h2]
      intro j hj0 hjlen
      rw [show ({ q with nodes := [] } : PathQueue).nodes = [] from rfl,
        List.length_nil] at hjlen
      omega
    · rw [if_neg hsize] at hpop
      injection hpop with h1
      have h2 := congrArg Prod.snd h1
      dsimp only [] at h2
      have hq2 : q2.nodes = PathQueue_HeapifyDown
          (((head :: tail).dropLast).set 0
            ((head :: tail).getD ((head :: tail).length - 1) default)) 0 := by
        rw [← h2]
      rw [hq2]
      unfold PathQueue_HeapifyDown
      have hlen0 : 0 < ((head :: tail).dropLast.set 0
          ((head :: tail).getD ((head :: tail).length - 1) default)).length := by
        rw [List.length_set, List.length_dropLast]
        exact Nat.pos_of_ne_zero hsize
      apply HeapifyDownLoop_heap
      · exact hlen0
      · exact Nat.le_refl _
      · intro j hj0 hjlen hjp
        rw [List.length_set, List.length_dropLast] at hjlen
        rw [heapKey_set_ne _ (by omega : (0 : Nat) ≠ j),
          heapKey_set_ne _ (by omega : (0 : Nat) ≠ (j - 1) / 2),
          heapKey_dropLast _ _ (by omega), heapKey_dropLast _ _ (by omega)]
        have hh := h j hj0 (by rw [hq]; omega)
        rw [hq] at hh
        exact hh
      · intro h0; omega
      · intro j hj0 hjlen hjp h0; omega

theorem IsHeap_root_min (l : List QEntry) (h : IsHeap l) :
    ∀ j, j < l.length → heapKey l 0 ≤ heapKey l j := by
  intro j
  induction j using Nat.strong_induction_on with
  | _ j ih =>
    intro hj
    cases Nat.eq_zero_or_pos j with
    | inl hz => rw [hz]
    | inr hpos =>
      have hparent : (j - 1) / 2 < j := by omega
      exact Nat.le_trans (ih ((j - 1) / 2) hparent (by omega)) (h j hpos hj)

theorem applyQueueOps_isHeap (q : PathQueue) (ops : List QOp) (h : IsHeap q.nodes) :
    IsHeap (applyQueueOps q ops).nodes := by
  induction ops generalizing q with
  | nil => exact h
  | cons op ops ih =>
    unfold applyQueueOps
    rw [List.foldl_cons]
    cases op with
    | push e =>
      exact ih _ (PathQueue_Push_isHeap q e h)
    | pop =>
      cases hpop : PathQueue_Pop q with
      | none => exact ih _ (by simp only [hpop]; exact h)
      | some result =>
        apply ih
        simp only [hpop]
        exact PathQueue_Pop_isHeap q h result.1 result.2 (by rw [hpop])

/-- C3: after any sequence of `PathQueue_Push` / `PathQueue_Pop` operations
on a frontier created by `PathQueue_Create`, the min-heap invariant holds
(no parent's `costF` exceeds either child's) and the root holds the minimum
`costF` among all currently held nodes. -/
theorem C3_heap_invariant (cap : Nat) (ops : List QOp) :
    IsHeap (applyQueueOps (PathQueue_Create cap) ops).nodes ∧
    ∀ j, j < (applyQueueOps (PathQueue_Create cap) ops).nodes.length →
      heapKey (applyQueueOps (PathQueue_Create cap) ops).nodes 0 ≤
        heapKey (applyQueueOps (PathQueue_Create cap) ops).nodes j := by
  have hempty : IsHeap (PathQueue_Create cap).nodes := by
    intro j hj0 hjlen
    rw [show (PathQueue_Create cap).nodes = [] from rfl, List.length_nil] at hjlen
    omega
  have hheap := applyQueueOps_isHeap (PathQueue_Create cap) ops hempty
  exact ⟨hheap, IsHeap_root_min _ hheap⟩

/-- C3 (witness): three pushes with `costF` 1, 3, 2 followed by a pop leave
the heap `[2, 3]` with the root minimal. -/
theorem C3_heap_invariant_witness :
    IsHeap (applyQueueOps (PathQueue_Create 4)
      [QOp.push { idx := 0, node := sampleNode }, QOp.push { idx := 1, node := ledgeNode },
        QOp.push { idx := 2, node := ledgeCreatedNode }, QOp.pop]).nodes ∧
    1 < (applyQueueOps (PathQueue_Create 4)
      [QOp.push { idx := 0, node := sampleNode }, QOp.push { idx := 1, node := ledgeNode },
        QOp.push { idx := 2, node := ledgeCreatedNode }, QOp.pop]).nodes.length ∧
    heapKey (applyQueueOps (PathQueue_Create 4)
      [QOp.push { idx := 0, node := sampleNode }, QOp.push { idx := 1, node := ledgeNode },
        QOp.push { idx := 2, node := ledgeCreatedNode }, QOp.pop]).nodes 0 ≤
      heapKey (applyQueueOps (PathQueue_Create 4)
        [QOp.push { idx := 0, node := sampleNode }, QOp.push { idx := 1, node := ledgeNode },
          QOp.push { idx := 2, node := ledgeCreatedNode }, QOp.pop]).nodes 1 :=
  ⟨(C3_heap_invariant 4
      [QOp.push { idx := 0, node := sampleNode }, QOp.push { idx := 1, node := ledgeNode },
        QOp.push { idx := 2, node := ledgeCreatedNode }, QOp.pop]).1,
    by decide,
    (C3_heap_invariant 4
      [QOp.push { idx := 0, node := sampleNode }, QOp.push { idx := 1, node := ledgeNode },
        QOp.push { idx := 2, node := ledgeCreatedNode }, QOp.pop]).2 1 (by decide)⟩

theorem and_two_pow_sub_one (x t : Nat) : x &&& (2 ^ t - 1) = x % 2 ^ t := by
  apply Nat.eq_of_testBit_eq
  intro i
  rw [Nat.testBit_land, Nat.testBit_two_pow_sub_one, Nat.testBit_mod_two_pow]
  exact Bool.and_comm _ _

theorem probeSlot_lt (home k cap : Nat) (h : 0 < cap) : probeSlot home k cap < cap :=
  Nat.mod_lt _ h

theorem probeDist_lt (home s cap : Nat) (h : 0 < cap) : probeDist home s cap < cap :=
  Nat.mod_lt _ h

theorem probeSlot_zero (home cap : Nat) (h : home < cap) : probeSlot home 0 cap = home := by
  unfold probeSlot
  rw [Nat.add_zero, Nat.mod_eq_of_lt h]

theorem probeSlot_probeDist (home s cap : Nat) (hh : home < cap) (hs : s < cap) :
    probeSlot home (probeDist home s cap) cap = s := by
  unfold probeSlot probeDist
  rw [Nat.add_mod_mod]
  have harith : home + (cap + s - home) = cap + s := by omega
  rw [harith, Nat.add_mod_left, Nat.mod_eq_of_lt hs]

theorem probeDist_probeSlot (home k cap : Nat) (hh : home < cap) (hk : k < cap) :
    probeDist home (probeSlot home k cap) cap = k := by
  unfold probeSlot probeDist
  rcases Nat.lt_or_ge (home + k) cap with hlt | hge
  · rw [Nat.mod_eq_of_lt hlt]
    have : cap + (home + k) - home = cap + k := by omega
    rw [this, Nat.add_mod_left, Nat.mod_eq_of_lt hk]
  · have hlt2 : home + k - cap < cap := by omega
    rw [Nat.mod_eq_sub_mod hge, Nat.mod_eq_of_lt hlt2]
    have : cap + (home + k - cap) - home = k := by omega
    rw [this, Nat.mod_eq_of_lt hk]

theorem probeSlot_succ (home k cap : Nat) :
    probeSlot home (k + 1) cap = (probeSlot home k cap + 1) % cap := by
  unfold probeSlot
  rw [Nat.mod_add_mod, ← Nat.add_assoc]

theorem probeSlot_inj (home k1 k2 cap : Nat) (hh : home < cap) (h1 : k1 < cap) (h2 : k2 < cap)
    (heq : probeSlot home k1 cap = probeSlot home k2 cap) : k1 = k2 := by
  have e1 := probeDist_probeSlot home k1 cap hh h1
  have e2 := probeDist_probeSlot home k2 cap hh h2
  rw [← e1, ← e2, heq]

theorem PathNode_Equal_iff (a b : PathNode) :
    PathNode_Equal a b = true ↔ (a.x = b.x ∧ a.y = b.y ∧ a.elevation = b.elevation) := by
  simp [PathNode_Equal]

theorem PathNode_Equal_comm (a b : PathNode) :
    PathNode_Equal a b = PathNode_Equal b a := by
  by_cases h : PathNode_Equal a b = true
  · have h' := (PathNode_Equal_iff a b).mp h
    have : PathNode_Equal b a = true :=
      (PathNode_Equal_iff b a).mpr ⟨h'.1.symm, h'.2.1.symm, h'.2.2.symm⟩
    rw [h, this]
  · have h2 : ¬(PathNode_Equal b a = true) := by
      intro hx
      have h' := (PathNode_Equal_iff b a).mp hx
      exact h ((PathNode_Equal_iff a b).mpr ⟨h'.1.symm, h'.2.1.symm, h'.2.2.symm⟩)
    rw [Bool.not_eq_true] at h h2
    rw [h, h2]

theorem PathNode_Equal_trans (a b c : PathNode) (h1 : PathNode_Equal a b = true)
    (h2 : PathNode_Equal b c = true) : PathNode_Equal a c = true := by
  have e1 := (PathNode_Equal_iff a b).mp h1
  have e2 := (PathNode_Equal_iff b c).mp h2
  exact (PathNode_Equal_iff a c).mpr
    ⟨e1.1.trans e2.1, e1.2.1.trans e2.2.1, e1.2.2.trans e2.2.2⟩

theorem PathNode_Hash_congr (a b : PathNode) (h : PathNode_Equal a b = true) :
    PathNode_Hash a = PathNode_Hash b := by
  have e := (PathNode_Equal_iff a b).mp h
  unfold PathNode_Hash
  rw [e.1, e.2.1, e.2.2]

theorem homeSlot_congr (a b : PathNode) (cap : Nat) (h : PathNode_Equal a b = true) :
    homeSlot a cap = homeSlot b cap := by
  unfold homeSlot
  rw [PathNode_Hash_congr a b h]

theorem getD_set_self_o (l : List (Option QEntry)) (i : Nat) (h : i < l.length)
    (e : Option QEntry) : (l.set i e).getD i none = e := by
  rw [List.getD_eq_getElem?_getD, List.getElem?_set_self h]
  rfl

theorem getD_set_ne_o (l : List (Option QEntry)) {i j : Nat} (h : i ≠ j) (e : Option QEntry) :
    (l.set i e).getD j none = l.getD j none := by
  rw [List.getD_eq_getElem?_getD, List.getElem?_set_ne h, ← List.getD_eq_getElem?_getD]

theorem TryInsertLoop_finds (t cap : Nat) (hcap : cap = 2 ^ t)
    (nodes : List (Option QEntry)) (e m : QEntry) (s : Nat)
    (hs : s < cap) (hm : nodes.getD s none = some m)
    (heq : PathNode_Equal m.node e.node = true) :
    ∀ dk k, dk = probeDist (homeSlot e.node cap) s cap - k →
      k ≤ probeDist (homeSlot e.node cap) s cap →
      (∀ j, k ≤ j → j < probeDist (homeSlot e.node cap) s cap →
        ∃ a, nodes.getD (probeSlot (homeSlot e.node cap) j cap) none = some a ∧
          PathNode_Equal a.node e.node = false) →
      PathList_TryInsertLoop (cap - 1) e (cap - k) nodes
        (probeSlot (homeSlot e.node cap) k cap) = (false, nodes, some m) := by
  have hcap0 : 0 < cap := by rw [hcap]; exact Nat.pos_pow_of_pos t (by omega)
  have hhome : homeSlot e.node cap < cap := Nat.mod_lt _ hcap0
  have hdlt : probeDist (homeSlot e.node cap) s cap < cap := probeDist_lt _ _ _ hcap0
  intro dk
  induction dk with
  | zero =>
    intro k hdk hkle hscan
    have hkd : k = probeDist (homeSlot e.node cap) s cap := by omega
    subst hkd
    obtain ⟨f, hf⟩ : ∃ f, cap - probeDist (homeSlot e.node cap) s cap = f + 1 :=
      ⟨cap - probeDist (homeSlot e.node cap) s cap - 1, by omega⟩
    rw [hf]
    unfold PathList_TryInsertLoop
    rw [probeSlot_probeDist _ _ _ hhome hs, hm]
    dsimp only []
    rw [if_pos heq]
  | succ dk ih =>
    intro k hdk hkle hscan
    have hklt : k < probeDist (homeSlot e.node cap) s cap := by omega
    obtain ⟨a, ha, hane⟩ := hscan k (Nat.le_refl k) hklt
    obtain ⟨f, hf⟩ : ∃ f, cap - k = f + 1 := ⟨cap - k - 1, by omega⟩
    rw [hf]
    unfold PathList_TryInsertLoop
    rw [ha]
    dsimp only []
    rw [if_neg (by rw [hane]; exact Bool.false_ne_true)]
    have hidx : (probeSlot (homeSlot e.node cap) k cap + 1) &&& (cap - 1) =
        probeSlot (homeSlot e.node cap) (k + 1) cap := by
      rw [hcap, and_two_pow_sub_one, ← hcap, ← probeSlot_succ]
    rw [hidx]
    have hfuel : f = cap - (k + 1) := by omega
    rw [hfuel]
    exact ih (k + 1) (by omega) (by omega)
      (fun j hj1 hj2 => hscan j (by omega) hj2)

theorem TryInsertLoop_step (mask : Nat) (e : QEntry) (fuel : Nat)
    (nodes : List (Option QEntry)) (index : Nat) :
    PathList_TryInsertLoop mask e (fuel + 1) nodes index =
      match nodes.getD index none with
      | none => (true, nodes.set index (some e), some e)
      | some current =>
        if PathNode_Equal current.node e.node then (false, nodes, some current)
        else PathList_TryInsertLoop mask e fuel nodes ((index + 1) &&& mask) := rfl

theorem TryInsertLoop_inserts (t cap : Nat) (hcap : cap = 2 ^ t)
    (nodes : List (Option QEntry)) (e : QEntry)
    (hnone : ∀ s, s < cap → ∀ a, nodes.getD s none = some a →
      PathNode_Equal a.node e.node = false) :
    ∀ dk k, dk = cap - k → k ≤ cap →
      (PathList_TryInsertLoop (cap - 1) e (cap - k) nodes
          (probeSlot (homeSlot e.node cap) k cap) = (false, nodes, none)) ∨
      (∃ kk, k ≤ kk ∧ kk < cap ∧
        nodes.getD (probeSlot (homeSlot e.node cap) kk cap) none = none ∧
        (∀ j, k ≤ j → j < kk →
          nodes.getD (probeSlot (homeSlot e.node cap) j cap) none ≠ none) ∧
        PathList_TryInsertLoop (cap - 1) e (cap - k) nodes
            (probeSlot (homeSlot e.node cap) k cap) =
          (true, nodes.set (probeSlot (homeSlot e.node cap) kk cap) (some e), some e)) := by
  have hcap0 : 0 < cap := by rw [hcap]; exact Nat.pos_pow_of_pos t (by omega)
  intro dk
  induction dk with
  | zero =>
    intro k hdk hkle
    have hkc : k = cap := by omega
    left
    rw [show cap - k = 0 by omega]
    rfl
  | succ dk ih =>
    intro k hdk hkle
    have hklt : k < cap := by omega
    obtain ⟨f, hf⟩ : ∃ f, cap - k = f + 1 := ⟨cap - k - 1, by omega⟩
    cases hslot : nodes.getD (probeSlot (homeSlot e.node cap) k cap) none with
    | none =>
      right
      refine ⟨k, Nat.le_refl k, hklt, hslot, fun j hj1 hj2 => by omega, ?_⟩
      rw [hf, TryInsertLoop_step, hslot]
    | some a =>
      have hane : PathNode_Equal a.node e.node = false :=
        hnone _ (probeSlot_lt _ _ _ hcap0) a hslot
      have hstep : PathList_TryInsertLoop (cap - 1) e (cap - k) nodes
          (probeSlot (homeSlot e.node cap) k cap) =
          PathList_TryInsertLoop (cap - 1) e (cap - (k + 1)) nodes
            (probeSlot (homeSlot e.node cap) (k + 1) cap) := by
        rw [hf, TryInsertLoop_step, hslot]
        dsimp only []
        rw [if_neg (by rw [hane]; exact Bool.false_ne_true)]
        have hidx : (probeSlot (homeSlot e.node cap) k cap + 1) &&& (cap - 1) =
            probeSlot (homeSlot e.node cap) (k + 1) cap := by
          rw [hcap, and_two_pow_sub_one, ← hcap, ← probeSlot_succ]
        rw [hidx]
        have hfuel : f = cap - (k + 1) := by omega
        rw [hfuel]
      rcases ih (k + 1) (by omega) (by omega) with hleft | ⟨kk, hk1, hk2, hk3, hk4, hk5⟩
      · left
        rw [hstep]
        exact hleft
      · right
        refine ⟨kk, by omega, hk2, hk3, ?_, by rw [hstep]; exact hk5⟩
        intro j hj1 hj2
        by_cases hjk : j = k
        · rw [hjk, hslot]
          exact fun hx => by cases hx
        · exact hk4 j (by omega) hj2

theorem PathList_TryInsert_finds (t : Nat) (l : PathList) (e : QEntry)
    (hcap : l.capacity = 2 ^ t) (hmask : l.mask = l.capacity - 1)
    (hlen : l.nodes.length = l.capacity)
    (hci : ChainInv l) (hnd : NoDupes l)
    (s : Nat) (m : QEntry) (hs : s < l.capacity)
    (hm : l.nodes.getD s none = some m)
    (heq : PathNode_Equal m.node e.node = true) :
    PathList_TryInsert l e = (false, l, some m) := by
  have hcap0 : 0 < l.capacity := by rw [hcap]; exact Nat.pos_pow_of_pos t (by omega)
  have hhome : homeSlot e.node l.capacity < l.capacity := Nat.mod_lt _ hcap0
  have hdlt : probeDist (homeSlot e.node l.capacity) s l.capacity < l.capacity :=
    probeDist_lt _ _ _ hcap0
  have hscan : ∀ j, 0 ≤ j → j < probeDist (homeSlot e.node l.capacity) s l.capacity →
      ∃ a, l.nodes.getD (probeSlot (homeSlot e.node l.capacity) j l.capacity) none = some a ∧
        PathNode_Equal a.node e.node = false := by
    intro j _ hj
    have hhome_me : homeSlot m.node l.capacity = homeSlot e.node l.capacity :=
      homeSlot_congr m.node e.node l.capacity heq
    have hocc := hci s hs m hm j (by rw [hhome_me]; exact hj)
    rw [hhome_me] at hocc
    cases hslot : l.nodes.getD (probeSlot (homeSlot e.node l.capacity) j l.capacity) none with
    | none => exact absurd hslot hocc
    | some a =>
      refine ⟨a, rfl, ?_⟩
      by_contra hcontra
      rw [Bool.not_eq_false] at hcontra
      have ham : PathNode_Equal a.node m.node = true :=
        PathNode_Equal_trans _ _ _ hcontra (by rw [PathNode_Equal_comm]; exact heq)
      have hslot_ne : probeSlot (homeSlot e.node l.capacity) j l.capacity ≠ s := by
        intro hx
        have hx2 : probeSlot (homeSlot e.node l.capacity) j l.capacity =
            probeSlot (homeSlot e.node l.capacity)
              (probeDist (homeSlot e.node l.capacity) s l.capacity) l.capacity := by
          rw [probeSlot_probeDist _ _ _ hhome hs]
          exact hx
        have := probeSlot_inj _ _ _ _ hhome
          (Nat.lt_trans hj hdlt) hdlt hx2
        omega
      have := hnd _ s (probeSlot_lt _ _ _ hcap0) hs hslot_ne a m hslot hm
      rw [ham] at this
      cases this
  have hfinds := TryInsertLoop_finds t l.capacity hcap l.nodes e m s hs hm heq
    (probeDist (homeSlot e.node l.capacity) s l.capacity) 0 (by omega) (by omega) hscan
  have hstart : PathNode_Hash e.node &&& l.mask =
      probeSlot (homeSlot e.node l.capacity) 0 l.capacity := by
    rw [hmask, hcap, and_two_pow_sub_one, probeSlot_zero _ _ (by rw [← hcap]; exact hhome)]
    rfl
  rw [show l.capacity - 0 = l.capacity from rfl] at hfinds
  unfold PathList_TryInsert
  dsimp only []
  rw [← hmask] at hfinds
  rw [hstart, hfinds]
  rfl

theorem PathList_TryInsert_preserves (t : Nat) (l : PathList) (e : QEntry)
    (hcap : l.capacity = 2 ^ t) (hmask : l.mask = l.capacity - 1)
    (hlen : l.nodes.length = l.capacity) (hci : ChainInv l) (hnd : NoDupes l) :
    (PathList_TryInsert l e).2.1.capacity = l.capacity ∧
    (PathList_TryInsert l e).2.1.mask = l.mask ∧
    (PathList_TryInsert l e).2.1.nodes.length = l.capacity ∧
    ChainInv (PathList_TryInsert l e).2.1 ∧
    NoDupes (PathList_TryInsert l e).2.1 := by
  have hcap0 : 0 < l.capacity := by rw [hcap]; exact Nat.pos_pow_of_pos t (by omega)
  have hhome : homeSlot e.node l.capacity < l.capacity := Nat.mod_lt _ hcap0
  have hstart : PathNode_Hash e.node &&& l.mask =
      probeSlot (homeSlot e.node l.capacity) 0 l.capacity := by
    rw [hmask, hcap, and_two_pow_sub_one, probeSlot_zero _ _ (by rw [← hcap]; exact hhome)]
    rfl
  by_cases hex : ∃ s, s < l.capacity ∧ ∃ m, l.nodes.getD s none = some m ∧
      PathNode_Equal m.node e.node = true
  · obtain ⟨s, hs, m, hm, heq⟩ := hex
    rw [PathList_TryInsert_finds t l e hcap hmask hlen hci hnd s m hs hm heq]
    exact ⟨rfl, rfl, hlen, hci, hnd⟩
  · have hnone : ∀ s, s < l.capacity → ∀ a, l.nodes.getD s none = some a →
        PathNode_Equal a.node e.node = false := by
      intro s hs a ha
      by_contra hcontra
      rw [Bool.not_eq_false] at hcontra
      exact hex ⟨s, hs, a, ha, hcontra⟩
    rcases TryInsertLoop_inserts t l.capacity hcap l.nodes e hnone l.capacity 0
        (by omega) (by omega) with hleft | ⟨kk, hk0, hklt, hempty, hprefix, heqloop⟩
    · rw [show l.capacity - 0 = l.capacity from rfl] at hleft
      rw [← hmask] at hleft
      unfold PathList_TryInsert
      dsimp only []
      rw [hstart, hleft]
      exact ⟨rfl, rfl, hlen, hci, hnd⟩
    · rw [show l.capacity - 0 = l.capacity from rfl] at heqloop
      rw [← hmask] at heqloop
      have hresult : PathList_TryInsert l e =
          (true,
            { l with
              nodes := l.nodes.set (probeSlot (homeSlot e.node l.capacity) kk l.capacity) (some e)
              size := l.size + 1 },
            some e) := by
        unfold PathList_TryInsert
        dsimp only []
        rw [hstart, heqloop]
        rfl
      rw [hresult]
      have hs0 : probeSlot (homeSlot e.node l.capacity) kk l.capacity < l.capacity :=
        probeSlot_lt _ _ _ hcap0
      have hs0len : probeSlot (homeSlot e.node l.capacity) kk l.capacity < l.nodes.length := by
        omega
    -- the remaining conjunction about the updated table
      refine ⟨rfl, rfl, by rw [List.length_set]; exact hlen, ?_, ?_⟩
      · -- ChainInv is preserved
        intro s' hs' a ha' k hk
        dsimp only [] at hs' ha' hk ⊢
        by_cases hss : s' = probeSlot (homeSlot e.node l.capacity) kk l.capacity
        · rw [hss, getD_set_self_o _ _ hs0len] at ha'
          injection ha' with ha'
          subst ha'
          rw [hss] at hk
          rw [probeDist_probeSlot _ _ _ hhome hklt] at hk
          have hocc := hprefix k (by omega) hk
          have hne : probeSlot (homeSlot e.node l.capacity) k l.capacity ≠
              probeSlot (homeSlot e.node l.capacity) kk l.capacity := by
            intro hx
            have := probeSlot_inj _ _ _ _ hhome (by omega) hklt hx
            omega
          rw [getD_set_ne_o _ (fun hx => hne hx.symm)]
          exact hocc
        · rw [getD_set_ne_o _ (fun hx => hss hx.symm)] at ha'
          have hocc := hci s' hs' a ha' k hk
          by_cases hpos : probeSlot (homeSlot a.node l.capacity) k l.capacity =
              probeSlot (homeSlot e.node l.capacity) kk l.capacity
          · rw [hpos, getD_set_self_o _ _ hs0len]
            exact fun hx => by cases hx
          · rw [getD_set_ne_o _ (fun hx => hpos hx.symm)]
            exact hocc
      · -- NoDupes is preserved
        intro i j hi hj hij a b hai hbj
        dsimp only [] at hi hj hai hbj
        by_cases hio : i = probeSlot (homeSlot e.node l.capacity) kk l.capacity
        · rw [hio, getD_set_self_o _ _ hs0len] at hai
          injection hai with hai
          subst hai
          have hjo : j ≠ probeSlot (homeSlot e.node l.capacity) kk l.capacity := by
            rw [← hio]; exact (Ne.symm hij)
          rw [getD_set_ne_o _ (fun hx => hjo hx.symm)] at hbj
          rw [PathNode_Equal_comm]
          exact hnone j hj b hbj
        · rw [getD_set_ne_o _ (fun hx => hio hx.symm)] at hai
          by_cases hjo : j = probeSlot (homeSlot e.node l.capacity) kk l.capacity
          · rw [hjo, getD_set_self_o _ _ hs0len] at hbj
            injection hbj with hbj
            subst hbj
            exact hnone i hi a hai
          · rw [getD_set_ne_o _ (fun hx => hjo hx.symm)] at hbj
            exact hnd i j hi hj hij a b hai hbj

theorem testBit_size_pred (m : Nat) (h : 1 ≤ m) : m.testBit (m.size - 1) = true := by
  have hL : 1 ≤ m.size := by
    by_contra hx
    have h0 : m.size = 0 := by omega
    rw [Nat.size_eq_zero] at h0
    omega
  have hlow : 2 ^ (m.size - 1) ≤ m := Nat.lt_size.mp (by omega)
  have hhigh : m < 2 ^ m.size := Nat.lt_size_self m
  have hpos : 0 < 2 ^ (m.size - 1) := Nat.pos_pow_of_pos _ (by omega)
  have hdiv : m / 2 ^ (m.size - 1) = 1 := by
    have hexp : m.size - 1 + 1 = m.size := by omega
    have hpow : (2 : Nat) ^ m.size = 2 * 2 ^ (m.size - 1) := by
      conv_lhs => rw [← hexp]
      rw [Nat.pow_succ]
      ring
    have h2 : m < 2 * 2 ^ (m.size - 1) := hpow ▸ hhigh
    have hge : 1 ≤ m / 2 ^ (m.size - 1) := (Nat.one_le_div_iff hpos).mpr hlow
    have hlt : m / 2 ^ (m.size - 1) < 2 := (Nat.div_lt_iff_lt_mul hpos).mpr h2
    omega
  rw [Nat.testBit_to_div_mod, hdiv]
  rfl

theorem or_shift_testBit (m a S sh : Nat) (hsh : sh = S + 1)
    (ha : ∀ i, a.testBit i = true ↔ ∃ s, s ≤ S ∧ m.testBit (i + s) = true) :
    ∀ i, (a ||| (a >>> sh)).testBit i = true ↔
      ∃ s, s ≤ 2 * S + 1 ∧ m.testBit (i + s) = true := by
  subst hsh
  intro i
  rw [Nat.testBit_lor, Nat.testBit_shiftRight]
  constructor
  · intro h
    rcases Bool.or_eq_true_iff.mp h with h1 | h2
    · obtain ⟨s, hs, hbit⟩ := (ha i).mp h1
      exact ⟨s, by omega, hbit⟩
    · obtain ⟨s, hs, hbit⟩ := (ha (S + 1 + i)).mp h2
      refine ⟨S + 1 + s, by omega, ?_⟩
      have harith : i + (S + 1 + s) = S + 1 + i + s := by omega
      rw [harith]
      exact hbit
  · rintro ⟨s, hs, hbit⟩
    apply Bool.or_eq_true_iff.mpr
    by_cases hsS : s ≤ S
    · exact Or.inl ((ha i).mpr ⟨s, hsS, hbit⟩)
    · refine Or.inr ((ha (S + 1 + i)).mpr ⟨s - (S + 1), by omega, ?_⟩)
      have harith : S + 1 + i + (s - (S + 1)) = i + s := by omega
      rw [harith]
      exact hbit

theorem SmearBits_testBit (m : Nat) :
    ∀ i, (SmearBits m).testBit i = true ↔ ∃ s, s ≤ 31 ∧ m.testBit (i + s) = true := by
  have h0 : ∀ i, m.testBit i = true ↔ ∃ s, s ≤ 0 ∧ m.testBit (i + s) = true := by
    intro i
    constructor
    · intro h
      exact ⟨0, Nat.le_refl 0, by simpa using h⟩
    · rintro ⟨s, hs, hbit⟩
      have hs0 : s = 0 := by omega
      subst hs0
      simpa using hbit
  have h1 := or_shift_testBit m m 0 1 rfl h0
  have h2 := or_shift_testBit m _ 1 2 rfl h1
  have h3 := or_shift_testBit m _ 3 4 rfl h2
  have h4 := or_shift_testBit m _ 7 8 rfl h3
  have h5 := or_shift_testBit m _ 15 16 rfl h4
  intro i
  exact h5 i

theorem SmearBits_eq_pow_sub_one (m : Nat) (h1 : 1 ≤ m) (h2 : m < 2 ^ 32) :
    SmearBits m = 2 ^ m.size - 1 := by
  have hsize : m.size ≤ 32 := Nat.size_le.mpr h2
  apply Nat.eq_of_testBit_eq
  intro i
  rw [Nat.testBit_two_pow_sub_one]
  by_cases hi : i < m.size
  · rw [decide_eq_true hi]
    apply (SmearBits_testBit m i).mpr
    refine ⟨m.size - 1 - i, by omega, ?_⟩
    have harith : i + (m.size - 1 - i) = m.size - 1 := by omega
    rw [harith]
    exact testBit_size_pred m h1
  · rw [decide_eq_false hi]
    by_contra hx
    rw [Bool.not_eq_false] at hx
    obtain ⟨s, hs, hbit⟩ := (SmearBits_testBit m i).mp hx
    have hlt : m < 2 ^ (i + s) :=
      Nat.lt_of_lt_of_le (Nat.lt_size_self m) (Nat.pow_le_pow_right (by omega) (by omega))
    rw [Nat.testBit_lt_two_pow hlt] at hbit
    cases hbit

theorem NextPowerOfTwo_eq_pow (n : Nat) (h : n ≤ 2 ^ 31) :
    ∃ t, NextPowerOfTwo n = 2 ^ t := by
  unfold NextPowerOfTwo
  split
  · exact ⟨0, rfl⟩
  · by_cases hm : n - 1 = 0
    · refine ⟨0, ?_⟩
      rw [hm]
      decide
    · have hp32 : (2 : Nat) ^ 31 < 2 ^ 32 := by norm_num
      have h1 : 1 ≤ n - 1 := by omega
      have h2 : n - 1 < 2 ^ 32 := by omega
      rw [SmearBits_eq_pow_sub_one _ h1 h2]
      have hszpos : 0 < 2 ^ (n - 1).size := Nat.pos_pow_of_pos _ (by omega)
      have hsub : 2 ^ (n - 1).size - 1 + 1 = 2 ^ (n - 1).size := by omega
      rw [hsub]
      have hszle : (n - 1).size ≤ 31 := Nat.size_le.mpr (by omega)
      have hszlt : 2 ^ (n - 1).size < 2 ^ 32 :=
        Nat.lt_of_le_of_lt (Nat.pow_le_pow_right (by omega) hszle) hp32
      rw [Nat.mod_eq_of_lt hszlt]
      exact ⟨(n - 1).size, rfl⟩

theorem PathList_Create_inv (capacity : Nat) :
    (PathList_Create capacity).capacity = NextPowerOfTwo capacity ∧
    (PathList_Create capacity).mask = (PathList_Create capacity).capacity - 1 ∧
    (PathList_Create capacity).nodes.length = (PathList_Create capacity).capacity ∧
    ChainInv (PathList_Create capacity) ∧ NoDupes (PathList_Create capacity) := by
  refine ⟨rfl, rfl, List.length_replicate _ _, ?_, ?_⟩
  · intro s hs a ha
    rw [show (PathList_Create capacity).nodes =
      List.replicate (NextPowerOfTwo capacity) none from rfl, getD_replicate_none] at ha
    cases ha
  · intro i j hi hj hij a b hai
    rw [show (PathList_Create capacity).nodes =
      List.replicate (NextPowerOfTwo capacity) none from rfl, getD_replicate_none] at hai
    cases hai

theorem PathList_InsertAll_inv (entries : List QEntry) :
    ∀ (l : PathList) (t : Nat), l.capacity = 2 ^ t → l.mask = l.capacity - 1 →
      l.nodes.length = l.capacity → ChainInv l → NoDupes l →
      (PathList_InsertAll l entries).capacity = l.capacity ∧
      (PathList_InsertAll l entries).mask = l.mask ∧
      (PathList_InsertAll l entries).nodes.length = l.capacity ∧
      ChainInv (PathList_InsertAll l entries) ∧ NoDupes (PathList_InsertAll l entries) := by
  induction entries with
  | nil => intro l t hcap hmask hlen hci hnd; exact ⟨rfl, rfl, hlen, hci, hnd⟩
  | cons e es ih =>
    intro l t hcap hmask hlen hci hnd
    have hpres := PathList_TryInsert_preserves t l e hcap hmask hlen hci hnd
    have hstep : PathList_InsertAll l (e :: es) =
        PathList_InsertAll (PathList_TryInsert l e).2.1 es := rfl
    rw [hstep]
    have hrec := ih (PathList_TryInsert l e).2.1 t (by rw [hpres.1]; exact hcap)
      (by rw [hpres.2.1, hpres.1]; exact hmask) (by rw [hpres.2.2.1, hpres.1])
      hpres.2.2.2.1 hpres.2.2.2.2
    refine ⟨by rw [hrec.1, hpres.1], by rw [hrec.2.1, hpres.2.1], ?_,
      hrec.2.2.2.1, hrec.2.2.2.2⟩
    rw [hrec.2.2.1, hpres.1]

/-- C4: in any visited set built by a sequence of `PathList_TryInsert` calls
on a freshly created table, no two distinct stored entries share the
`(x, y, elevation)` triple, and `PathList_TryInsert` with a node logically
equal to a stored entry returns the originally stored entry with
`inserted = false`, leaving the table unchanged. -/
theorem C4_visited_set_unique (capacity : Nat) (entries : List QEntry) (e m : QEntry)
    (s : Nat) (hcap : capacity ≤ 2 ^ 31)
    (hs : s < (PathList_InsertAll (PathList_Create capacity) entries).capacity)
    (hm : (PathList_InsertAll (PathList_Create capacity) entries).nodes.getD s none = some m)
    (heq : PathNode_Equal m.node e.node = true) :
    NoDupes (PathList_InsertAll (PathList_Create capacity) entries) ∧
    PathList_TryInsert (PathList_InsertAll (PathList_Create capacity) entries) e =
      (false, PathList_InsertAll (PathList_Create capacity) entries, some m) := by
  obtain ⟨t, hpow⟩ := NextPowerOfTwo_eq_pow capacity hcap
  have hc := PathList_Create_inv capacity
  have hinv := PathList_InsertAll_inv entries (PathList_Create capacity) t
    (by rw [hc.1]; exact hpow) hc.2.1 hc.2.2.1 hc.2.2.2.1 hc.2.2.2.2
  have hcapeq : (PathList_InsertAll (PathList_Create capacity) entries).capacity = 2 ^ t := by
    rw [hinv.1, hc.1]
    exact hpow
  refine ⟨hinv.2.2.2.2, ?_⟩
  apply PathList_TryInsert_finds t _ e hcapeq
  · rw [hinv.2.1, hc.2.1, hc.1, hinv.1, hc.1]
  · rw [hinv.2.2.1, ← hinv.1]
  · exact hinv.2.2.2.1
  · exact hinv.2.2.2.2
  · exact hs
  · exact hm
  · exact heq

/-- C4 (witness): one entry stored at slot 2 of a 4-slot table; inserting a
logically equal node (same position and elevation, different costs) returns
the original entry and the unchanged table. -/
theorem C4_visited_set_unique_witness :
    (4 ≤ 2 ^ 31) ∧
    2 < (PathList_InsertAll (PathList_Create 4) [{ idx := 0, node := sampleNode }]).capacity ∧
    (PathList_InsertAll (PathList_Create 4)
        [{ idx := 0, node := sampleNode }]).nodes.getD 2 none =
      some { idx := 0, node := sampleNode } ∧
    PathNode_Equal sampleNode
      { parent := none, costG := 5, costF := 9, x := 8, y := 7, elevation := 3
        movementAction := MOVEMENT_ACTION_NONE, originDirection := DIR_NONE } = true ∧
    (NoDupes (PathList_InsertAll (PathList_Create 4) [{ idx := 0, node := sampleNode }]) ∧
      PathList_TryInsert (PathList_InsertAll (PathList_Create 4)
          [{ idx := 0, node := sampleNode }])
        { idx := 7
          node := { parent := none, costG := 5, costF := 9, x := 8, y := 7, elevation := 3
                    movementAction := MOVEMENT_ACTION_NONE, originDirection := DIR_NONE } } =
        (false, PathList_InsertAll (PathList_Create 4) [{ idx := 0, node := sampleNode }],
          some { idx := 0, node := sampleNode })) :=
  ⟨by norm_num, by decide, by decide, by decide,
    C4_visited_set_unique 4 [{ idx := 0, node := sampleNode }]
      { idx := 7
        node := { parent := none, costG := 5, costF := 9, x := 8, y := 7, elevation := 3
                  movementAction := MOVEMENT_ACTION_NONE, originDirection := DIR_NONE } }
      { idx := 0, node := sampleNode } 2 (by norm_num) (by decide) (by decide) (by decide)⟩
